import Mathlib

/-!
# Verification development for `pkg/apiserver/handler/handler.go`

The handler is glue between the gin HTTP context, the client-go cache listers
and the generated REST clients.  Each Go method of `Handler` is embedded as a
function `Handler → Context → Handler × Context`: the first component is the
state the four references of the handler give access to (both informer caches
and the API server behind both clients), the second the gin context with its
response writer.

The library functions the handler calls (gin, apimachinery, client-go) are not
part of this repository.  They are embedded next to the handler, each with the
Go function it stands for named in its doc comment, to the extent the handler
depends on them:

* gin: `Context.Param`, `Context.JSON`, `Context.BindJSON` and the response
  writer with the status line that was actually sent;
* apimachinery: `errors.IsNotFound`, label selectors built from a set with
  their validation, field selectors with escaping and parsing;
* client-go: the cache listers over a list of cached objects, the checks of
  `rest.Request` on path segments, and the API server as a store of FLApps and
  events with an optional transport failure.

Go strings are taken to be valid UTF-8 and are represented by `String`.
-/

namespace handler

deriving instance DecidableEq for Except

/-! ## `k8s.io/apimachinery/pkg/api/errors` -/

/-- Values of `metav1.StatusReason` that the embedded calls can produce. -/
inductive StatusReason where
  | NotFound
  | AlreadyExists
  | BadRequest
  | Invalid
  | ServiceUnavailable
  | Unknown
deriving DecidableEq, Repr

/-- Go `error` values.  `apiStatus` is an `*errors.StatusError` (it implements
`APIStatus`), `plain` is any other error, such as one made by `fmt.Errorf` or
returned by the JSON decoder. -/
inductive GoError where
  | apiStatus (reason : StatusReason) (message : String)
  | plain (message : String)
deriving DecidableEq, Repr

/-- The method `err.Error()`. -/
def GoError.Error : GoError → String
  | .apiStatus _ m => m
  | .plain m => m

/-- Go `errors.ReasonForError`: the reason of an `APIStatus` error, and
`StatusReasonUnknown` for every other error. -/
def ReasonForError : GoError → StatusReason
  | .apiStatus r _ => r
  | .plain _ => .Unknown

/-- Go `errors.IsNotFound`. -/
def IsNotFound (err : GoError) : Bool :=
  ReasonForError err == .NotFound

/-- Go `strconv.Quote(s)`, which the verb `%q` prints: the string between
double quotes, with a backslash before every double quote and backslash.
Control and non-printable characters, which Go writes as escape sequences,
are kept as they are. -/
def goQuote (s : String) : String :=
  String.mk ('"' :: (s.data.flatMap (fun c => if c = '"' ∨ c = '\\' then ['\\', c] else [c]))
    ++ ['"'])

/-- Go `errors.NewNotFound(qualifiedResource, name)`; the message is
`fmt.Sprintf("%s %q not found", resource, name)`. -/
def NewNotFound (resource name : String) : GoError :=
  .apiStatus .NotFound (resource ++ " " ++ goQuote name ++ " not found")

/-! ## Cluster objects -/

/-- Go `labels.Set`, a `map[string]string`, kept as an association list. -/
abbrev LabelSet := List (String × String)

/-- A `v1.Namespace`: its name and labels. -/
structure Namespace where
  Name : String
  Labels : LabelSet := []
deriving DecidableEq, Repr

/-- A `v1.Pod`: the metadata the handler's queries depend on. -/
structure Pod where
  Namespace : String
  Name : String
  Labels : LabelSet := []
deriving DecidableEq, Repr

/-- A `v1.Event`: metadata and the name of the involved object. -/
structure Event where
  Namespace : String
  Name : String
  InvolvedObjectName : String
deriving DecidableEq, Repr

/-- A `v1alpha1.FLApp`; `spec` stands for the specification and status. -/
structure FLApp where
  Namespace : String := ""
  Name : String := ""
  Spec : String := ""
deriving DecidableEq, Repr

/-! ## `github.com/gin-gonic/gin` -/

/-- Values stored in a `gin.H` by the handler. -/
inductive Payload where
  | namespaces (v : List Namespace)
  | pods (v : List Pod)
  | pod (v : Pod)
  | events (v : List Event)
  | flapp (v : FLApp)
  | flapps (v : List FLApp)
  | text (v : String)
deriving DecidableEq, Repr

/-- Go `gin.H`, a `map[string]interface{}`; the handler only builds literals
with at most one key. -/
abbrev H := List (String × Payload)

/-- What has reached the underlying `http.ResponseWriter`: the status line
once `WriteHeader` was called on it, and the JSON documents written. -/
structure Wire where
  status : Option Nat := none
  body : List H := []
deriving DecidableEq, Repr

/-- Go `gin.responseWriter`: `status` is the field `w.status` (it starts at
`defaultStatus = 200`), `written` is `w.Written()`, that is `size != noWritten`. -/
structure ResponseWriter where
  status : Nat := 200
  written : Bool := false
  wire : Wire := {}
deriving DecidableEq, Repr

/-- The request body as the JSON decoder sees it: either it decodes to an
FLApp or decoding fails with an error. -/
inductive Body where
  | malformed (err : GoError)
  | flapp (obj : FLApp)
deriving DecidableEq, Repr

/-- Go `gin.Context`: path parameters, request body, response writer, the
abort flag and the error list `c.Errors`. -/
structure Context where
  Params : List (String × String) := []
  body : Body := .flapp {}
  Writer : ResponseWriter := {}
  aborted : Bool := false
  Errors : List GoError := []
deriving DecidableEq, Repr

/-- Go `Context.Param(key)`: the value of the first entry with that key and
the empty string when there is none. -/
def Context.Param (c : Context) (key : String) : String :=
  (c.Params.lookup key).getD ""

/-- Go `responseWriter.WriteHeader(code)`: records the code in `w.status`.
When the header was already written gin logs a warning and what the client
received does not change; gin releases differ on whether `w.status` is still
updated then, and nothing below depends on it. -/
def ResponseWriter.WriteHeader (w : ResponseWriter) (code : Nat) : ResponseWriter :=
  if 0 < code ∧ w.status ≠ code then { w with status := code } else w

/-- Go `responseWriter.WriteHeaderNow()`: the first call sends the status
line with the current `w.status`; later calls do nothing. -/
def ResponseWriter.WriteHeaderNow (w : ResponseWriter) : ResponseWriter :=
  if w.written then w
  else { w with written := true, wire := { w.wire with status := some w.status } }

/-- Go `responseWriter.Write(data)`: sends the header if it was not sent yet,
then the data. -/
def ResponseWriter.Write (w : ResponseWriter) (data : H) : ResponseWriter :=
  let w1 := w.WriteHeaderNow
  { w1 with wire := { w1.wire with body := w1.wire.body ++ [data] } }

/-- Go `bodyAllowedForStatus`. -/
def bodyAllowedForStatus (status : Nat) : Bool :=
  if 100 ≤ status ∧ status ≤ 199 then false
  else if status = 204 then false
  else if status = 304 then false
  else true

/-- Go `Context.JSON(code, obj)`, that is `Context.Render` with the JSON
renderer: set the status, then write the rendered object. -/
def Context.JSON (c : Context) (code : Nat) (obj : H) : Context :=
  let w := c.Writer.WriteHeader code
  if bodyAllowedForStatus code then { c with Writer := w.Write obj }
  else { c with Writer := w.WriteHeaderNow }

/-- Go `Context.AbortWithError(code, err)`: `AbortWithStatus(code)` sets the
status, sends the header at once and aborts; the error is appended to
`c.Errors`. -/
def Context.AbortWithError (c : Context) (code : Nat) (err : GoError) : Context :=
  { c with
    Writer := (c.Writer.WriteHeader code).WriteHeaderNow
    aborted := true
    Errors := c.Errors ++ [err] }

/-- Go `Context.BindJSON(obj)`, that is `MustBindWith(obj, binding.JSON)`:
when decoding fails the request is aborted with status 400 and the error is
returned. -/
def Context.BindJSON (c : Context) : Context × Except GoError FLApp :=
  match c.body with
  | .flapp obj => (c, .ok obj)
  | .malformed err => (c.AbortWithError 400 err, .error err)

/-- The status line the client received, if any. -/
def Context.responseStatus (c : Context) : Option Nat := c.Writer.wire.status

/-- The JSON documents the client received. -/
def Context.responseBody (c : Context) : List H := c.Writer.wire.body

/-! ## `k8s.io/apimachinery/pkg/util/validation` and `pkg/labels` -/

/-- The character class `[A-Za-z0-9]`. -/
def isAlnum (c : Char) : Bool :=
  ('a' ≤ c && c ≤ 'z') || ('A' ≤ c && c ≤ 'Z') || ('0' ≤ c && c ≤ '9')

/-- The character class `[-A-Za-z0-9_.]`. -/
def isNameChar (c : Char) : Bool :=
  isAlnum c || c == '-' || c == '_' || c == '.'

/-- The anchored regular expression `([A-Za-z0-9][-A-Za-z0-9_.]*)?[A-Za-z0-9]`
(`qualifiedNameFmt`): non-empty, every character in the class, first and last
alphanumeric. -/
def matchesQualifiedNameFmt (cs : List Char) : Bool :=
  match cs with
  | [] => false
  | c :: rest => isAlnum c && rest.all isNameChar && isAlnum ((c :: rest).getLast (by simp))

/-- Go `validation.IsValidLabelValue(value)` returning no message: at most
63 bytes and matching `(qualifiedNameFmt)?`. -/
def IsValidLabelValue (value : String) : Bool :=
  decide (value.data.length ≤ 63) && (value.data.isEmpty || matchesQualifiedNameFmt value.data)

/-- The anchored regular expression `[a-z0-9]([-a-z0-9]*[a-z0-9])?`
(`dns1123LabelFmt`). -/
def matchesDNS1123Label (cs : List Char) : Bool :=
  let lowerAlnum := fun (c : Char) => ('a' ≤ c && c ≤ 'z') || ('0' ≤ c && c ≤ '9')
  match cs with
  | [] => false
  | c :: rest =>
    lowerAlnum c && rest.all (fun d => lowerAlnum d || d == '-')
      && lowerAlnum ((c :: rest).getLast (by simp))

/-- Go `strings.Split(s, sep)` for a one-character separator, on character
lists. -/
def splitOnChar (sep : Char) : List Char → List (List Char)
  | [] => [[]]
  | c :: cs =>
    match splitOnChar sep cs with
    | [] => [[]]
    | part :: parts => if c = sep then [] :: part :: parts else (c :: part) :: parts

/-- Go `validation.IsDNS1123Subdomain(value)` returning no message: at most
253 bytes and labels matching `dns1123LabelFmt` separated by dots. -/
def IsDNS1123Subdomain (cs : List Char) : Bool :=
  decide (cs.length ≤ 253) && (splitOnChar '.' cs).all matchesDNS1123Label

/-- Go `validation.IsQualifiedName(value)` returning no message; this is what
`validateLabelKey` checks. -/
def IsQualifiedName (value : String) : Bool :=
  match splitOnChar '/' value.data with
  | [name] => decide (name.length ≤ 63) && matchesQualifiedNameFmt name
  | [pre, name] =>
    !pre.isEmpty && IsDNS1123Subdomain pre
      && decide (name.length ≤ 63) && matchesQualifiedNameFmt name
  | _ => false

/-- Go `labels.Requirement` with operator `selection.Equals` and one value,
the only kind `SelectorFromSet` builds. -/
structure Requirement where
  key : String
  value : String
deriving DecidableEq, Repr

/-- Go `labels.NewRequirement(key, selection.Equals, []string{value})`: the
key and the value are validated; an invalid one gives an error. -/
def NewRequirement (key value : String) : Except GoError Requirement :=
  if !IsQualifiedName key then .error (.plain ("invalid label key \"" ++ key ++ "\""))
  else if !IsValidLabelValue value then
    .error (.plain ("invalid label value: \"" ++ value ++ "\""))
  else .ok { key := key, value := value }

/-- Go `Requirement.Matches(ls)` for the operator `Equals`: the set has the
key and its value is the required one. -/
def Requirement.Matches (r : Requirement) (ls : LabelSet) : Bool :=
  match ls.lookup r.key with
  | none => false
  | some v => v == r.value

/-- Go `labels.internalSelector`, a list of requirements. -/
abbrev Selector := List Requirement

/-- Go `labels.Everything()`. -/
def Everything : Selector := []

/-- Go `internalSelector.Empty()`. -/
def Selector.Empty (lsel : Selector) : Bool := lsel.length == 0

/-- Go `internalSelector.Matches(ls)`: every requirement matches. -/
def Selector.Matches (lsel : Selector) (ls : LabelSet) : Bool :=
  lsel.all (fun r => r.Matches ls)

/-- The loop of `SelectorFromSet`: the first entry whose requirement cannot be
built makes the function return the empty selector. -/
def SelectorFromSetLoop : LabelSet → Selector → Selector
  | [], requirements => requirements
  | (label, value) :: rest, requirements =>
    match NewRequirement label value with
    | .ok r => SelectorFromSetLoop rest (requirements ++ [r])
    | .error _ => []

/-- Go `labels.SelectorFromSet(ls)` as it is in the apimachinery releases
whose generated clients take no context argument (the ones `handler.go`
compiles against): an empty set, and a set with an entry that fails
validation, give `internalSelector{}`, which selects everything.  The final
sort of the requirements by key only fixes the order and is left out. -/
def SelectorFromSet (ls : LabelSet) : Selector :=
  if ls.length == 0 then [] else SelectorFromSetLoop ls []

/-- Go `labels.Set.AsSelector()`. -/
def AsSelector (ls : LabelSet) : Selector := SelectorFromSet ls

/-! ## `k8s.io/client-go/tools/cache` and the generated listers -/

/-- Go `metav1.NamespaceAll`. -/
def NamespaceAll : String := ""

/-- Go `cache.ListAll(store, selector, appendFn)`, for the namespace store. -/
def ListAll (store : List Namespace) (selector : Selector) : List Namespace :=
  let selectAll := selector.Empty
  store.filter (fun m => selectAll || selector.Matches m.Labels)

/-- Go `cache.ListAllByNamespace(indexer, namespace, selector, appendFn)`, for
the pod indexer: with `NamespaceAll` every item is a candidate, otherwise the
items the namespace index gives for `ns`. -/
def ListAllByNamespace (indexer : List Pod) (ns : String) (selector : Selector) : List Pod :=
  let selectAll := selector.Empty
  if ns = NamespaceAll then
    indexer.filter (fun m => selectAll || selector.Matches m.Labels)
  else
    (indexer.filter (fun m => m.Namespace == ns)).filter
      (fun m => selectAll || selector.Matches m.Labels)

/-- The caches behind `informerFactory`: the pod indexer and the namespace
store. -/
structure SharedInformerFactory where
  pods : List Pod := []
  namespaces : List Namespace := []
deriving DecidableEq, Repr

/-- The cache behind `crdInformerFactory`: the FLApp indexer. -/
structure CRDSharedInformerFactory where
  flapps : List FLApp := []
deriving DecidableEq, Repr

/-- Go `namespaceLister.List(selector)`. -/
def NamespaceLister.List (f : SharedInformerFactory) (selector : Selector) :
    Except GoError (List Namespace) :=
  .ok (ListAll f.namespaces selector)

/-- Go `podNamespaceLister.List(selector)` of `Pods(ns)`. -/
def PodNamespaceLister.List (f : SharedInformerFactory) (ns : String) (selector : Selector) :
    Except GoError (List Pod) :=
  .ok (ListAllByNamespace f.pods ns selector)

/-- Go `podNamespaceLister.Get(name)` of `Pods(ns)`: the indexer entry stored
under the key of `ns` and `name`, or `NewNotFound(v1.Resource("pod"), name)`. -/
def PodNamespaceLister.Get (f : SharedInformerFactory) (ns name : String) :
    Except GoError Pod :=
  match f.pods.find? (fun p => p.Namespace == ns && p.Name == name) with
  | some p => .ok p
  | none => .error (NewNotFound "pod" name)

/-! ## `k8s.io/apimachinery/pkg/fields` -/

/-- Go `fields.EscapeValue(s)`: the replacer puts a backslash before every
backslash, comma and equals sign. -/
def EscapeValue (s : List Char) : List Char :=
  s.flatMap (fun c => if c = '\\' ∨ c = ',' ∨ c = '=' then ['\\', c] else [c])

/-- Go `fields.UnescapeValue(s)`, the loop over the runes of `s`: `inSlash`
is the loop flag and `v` the buffer, kept in reverse. -/
def UnescapeLoop : List Char → Bool → List Char → Except GoError (List Char)
  | [], inSlash, v =>
    if inSlash then .error (.plain "invalid field selector: invalid escape sequence: \\")
    else .ok v.reverse
  | c :: cs, true, v =>
    if c = '\\' ∨ c = ',' ∨ c = '=' then UnescapeLoop cs false (c :: v)
    else .error (.plain "invalid field selector: invalid escape sequence")
  | c :: cs, false, v =>
    if c = '\\' then UnescapeLoop cs true v
    else if c = ',' ∨ c = '=' then
      .error (.plain "invalid field selector: unescaped character in value")
    else UnescapeLoop cs false (c :: v)

/-- Go `fields.UnescapeValue(s)`: a string without backslash, comma or equals
sign is returned as it is, any other goes through the loop. -/
def UnescapeValue (s : List Char) : Except GoError (List Char) :=
  if !(s.any (fun c => c = '\\' ∨ c = ',' ∨ c = '=')) then .ok s
  else UnescapeLoop s false []

/-- Go `fields.splitTerms`, the loop: `cur` is the text since `startIndex`,
kept in reverse.  An escaped comma stays in the term with its backslash. -/
def splitTermsLoop : List Char → Bool → List Char → List (List Char)
  | [], _, cur => [cur.reverse]
  | c :: cs, true, cur => splitTermsLoop cs false (c :: cur)
  | c :: cs, false, cur =>
    if c = '\\' then splitTermsLoop cs true (c :: cur)
    else if c = ',' then cur.reverse :: splitTermsLoop cs false []
    else splitTermsLoop cs false (c :: cur)

/-- Go `fields.splitTerms(fieldSelector)`. -/
def splitTerms (fieldSelector : List Char) : List (List Char) :=
  if fieldSelector.length = 0 then [] else splitTermsLoop fieldSelector false []

/-- The operators of `termOperators`, in the order they are tried. -/
inductive Operator where
  | notEqual
  | doubleEqual
  | equal
deriving DecidableEq, Repr

/-- Go `fields.splitTerm(term)`, the loop over the positions of the term:
`lhs` is the text before the position, kept in reverse, the second argument
is `remaining`.  At each position `!=`, `==` and `=` are tried in that order
with `strings.HasPrefix`. -/
def splitTermLoop (lhs : List Char) : List Char → Option (List Char × Operator × List Char)
  | [] => none
  | c :: cs =>
    if ['!', '='].isPrefixOf (c :: cs) then some (lhs.reverse, .notEqual, (c :: cs).drop 2)
    else if ['=', '='].isPrefixOf (c :: cs) then some (lhs.reverse, .doubleEqual, (c :: cs).drop 2)
    else if ['='].isPrefixOf (c :: cs) then some (lhs.reverse, .equal, (c :: cs).drop 1)
    else splitTermLoop (c :: lhs) cs

/-- Go `fields.splitTerm(term)`. -/
def splitTerm (term : List Char) : Option (List Char × Operator × List Char) :=
  splitTermLoop [] term

/-- Go `fields.hasTerm` (`negated = false`) and `fields.notHasTerm`
(`negated = true`). -/
structure Term where
  field : String
  value : String
  negated : Bool := false
deriving DecidableEq, Repr

/-- Go `fields.Selector` as the list of the terms of an `andTerm`; a single
term is the list with that term. -/
abbrev FieldSelector := List Term

/-- The loop of `fields.parseSelector` over the sorted parts. -/
def parseParts : List (List Char) → Except GoError FieldSelector
  | [] => .ok []
  | part :: parts =>
    if part = [] then parseParts parts
    else
      match splitTerm part with
      | none => .error (.plain "invalid selector")
      | some (lhs, op, rhs) =>
        match UnescapeValue rhs with
        | .error err => .error err
        | .ok unescapedRHS =>
          match parseParts parts with
          | .error err => .error err
          | .ok items =>
            .ok ({ field := String.mk lhs, value := String.mk unescapedRHS,
                   negated := decide (op = .notEqual) } :: items)

/-- Go `fields.ParseSelector(selector)`: split into terms, sort them, split
each at its operator and unescape the right-hand side. -/
def ParseSelector (selector : String) : Except GoError FieldSelector :=
  parseParts ((splitTerms selector.data).insertionSort (fun a b => a ≤ b))

/-- Go `fields.OneTermEqualSelector(k, v)`. -/
def OneTermEqualSelector (k v : String) : Term := { field := k, value := v }

/-- Go `hasTerm.String()`: `fmt.Sprintf("%v=%v", t.field, EscapeValue(t.value))`. -/
def Term.String (t : Term) : String :=
  String.mk (t.field.data ++ '=' :: EscapeValue t.value.data)

/-! ## `k8s.io/client-go/rest` and the API server behind the clients -/

/-- Go `rest.IsValidPathSegmentName(name)`: the list of messages, empty for
a valid name.  The name may not be `.` or `..` and may not contain `/` or
`%`. -/
def IsValidPathSegmentName (name : String) : List String :=
  if name = "." then ["may not be '.'"]
  else if name = ".." then ["may not be '..'"]
  else
    (if name.data.contains '/' then ["may not contain '/'"] else [])
      ++ (if name.data.contains '%' then ["may not contain '%'"] else [])

/-- The verb `%v` on a `[]string`: the elements separated by blanks, between
square brackets. -/
def formatStrings (msgs : List String) : String :=
  "[" ++ " ".intercalate msgs ++ "]"

/-- Go `Request.Namespace(ns)`: the error it records, if any.  An empty
value is accepted here. -/
def Request.Namespace (ns : String) : Option GoError :=
  if (IsValidPathSegmentName ns).length ≠ 0 then
    some (.plain ("invalid namespace " ++ goQuote ns ++ ": "
      ++ formatStrings (IsValidPathSegmentName ns)))
  else none

/-- Go `Request.Name(resourceName)`: the error it records, if any. -/
def Request.Name (resourceName : String) : Option GoError :=
  if resourceName.data.length = 0 then some (.plain "resource name may not be empty")
  else if (IsValidPathSegmentName resourceName).length ≠ 0 then
    some (.plain ("invalid resource name " ++ goQuote resourceName ++ ": "
      ++ formatStrings (IsValidPathSegmentName resourceName)))
  else none

/-- The HTTP verbs of the requests the generated clients build. -/
inductive Verb where
  | GET
  | POST
  | DELETE
deriving DecidableEq, Repr

/-- The error with which the REST client refuses a request before sending
it: the error recorded by `Request.Namespace` or `Request.Name`, and then the
checks at the start of `Request.request`, which refuse a GET or DELETE with a
resource name and a POST when the namespace is set and empty. -/
def Request.refusal (verb : Verb) (ns : String) (name : Option String) : Option GoError :=
  match Request.Namespace ns with
  | some err => some err
  | none =>
    match name.bind Request.Name with
    | some err => some err
    | none =>
      if (verb = .GET ∨ verb = .DELETE) ∧ name.isSome ∧ ns.data.length = 0 then
        some (.plain "an empty namespace may not be set when a resource name is provided")
      else if verb = .POST ∧ ns.data.length = 0 then
        some (.plain "an empty namespace may not be set during creation")
      else none

/-- Go `crdclientset.Clientset` together with the API server it talks to:
the stored FLApps, and `unavailable`, the error every request that is sent
fails with while the server does not serve it. -/
structure CRDClientset where
  flapps : List FLApp := []
  unavailable : Option GoError := none
deriving DecidableEq, Repr

/-- Go `clientset.Clientset` together with the API server it talks to: the
stored events, and `unavailable` as in `CRDClientset`. -/
structure Clientset where
  events : List Event := []
  unavailable : Option GoError := none
deriving DecidableEq, Repr

/-- The first error met while a list request with a namespace and, for
`some`, a resource name is built and sent: the errors recorded by
`Request.Namespace` and `Request.Name`, then the transport error. -/
def requestError (unavailable : Option GoError) (ns : String) (name : Option String) :
    Option GoError :=
  match Request.Namespace ns with
  | some err => some err
  | none =>
    match name.bind Request.Name with
    | some err => some err
    | none => unavailable

/-- Go `FLApps(ns).Get(name, metav1.GetOptions{})`: unless the client refuses
the request or the server does not serve it, the stored FLApp with that key
(namespace and name), a NotFound status when there is none. -/
def FLApps.Get (cs : CRDClientset) (ns name : String) : Except GoError FLApp :=
  match Request.refusal .GET ns (some name) with
  | some err => .error err
  | none =>
    match cs.unavailable with
    | some err => .error err
    | none =>
      match cs.flapps.find? (fun a => a.Namespace == ns && a.Name == name) with
      | some a => .ok a
      | none => .error (NewNotFound "flapps.fedlearner.k8s.io" name)

/-- Go `FLApps(ns).List(metav1.ListOptions{})`: the stored FLApps of the
namespace, of all namespaces for `NamespaceAll`. -/
def FLApps.List (cs : CRDClientset) (ns : String) : Except GoError (List FLApp) :=
  match requestError cs.unavailable ns none with
  | some err => .error err
  | none =>
    if ns = NamespaceAll then .ok cs.flapps
    else .ok (cs.flapps.filter (fun a => a.Namespace == ns))

/-- Go `FLApps(ns).Create(flapp)`: unless the client refuses the request or
the server does not serve it, the server refuses an object whose own
`Namespace` differs from the one of the request, one without a name and one
that exists already; otherwise it stores the object under the namespace
of the request and returns it.  Defaulting, admission and the metadata the
server fills in are not represented. -/
def FLApps.Create (cs : CRDClientset) (ns : String) (flapp : FLApp) :
    Except GoError FLApp × CRDClientset :=
  match Request.refusal .POST ns none with
  | some err => (.error err, cs)
  | none =>
    match cs.unavailable with
    | some err => (.error err, cs)
    | none =>
      if flapp.Namespace ≠ "" ∧ flapp.Namespace ≠ ns then
        (.error (.apiStatus .BadRequest
          "the namespace of the provided object does not match the namespace sent on the request"), cs)
      else if flapp.Name = "" then
        (.error (.apiStatus .Invalid
          "metadata.name: Required value: name or generateName is required"), cs)
      else if cs.flapps.any (fun a => a.Namespace == ns && a.Name == flapp.Name) then
        (.error (.apiStatus .AlreadyExists
          ("flapps.fedlearner.k8s.io " ++ goQuote flapp.Name ++ " already exists")), cs)
      else
        let stored := { flapp with Namespace := ns }
        (.ok stored, { cs with flapps := cs.flapps ++ [stored] })

/-- Go `FLApps(ns).Delete(name, &metav1.DeleteOptions{})`: unless the client
refuses the request or the server does not serve it, removes the stored FLApp
with that namespace and name, a NotFound status when there is none.
Finalizers and graceful deletion are not represented. -/
def FLApps.Delete (cs : CRDClientset) (ns name : String) :
    Except GoError Unit × CRDClientset :=
  match Request.refusal .DELETE ns (some name) with
  | some err => (.error err, cs)
  | none =>
    match cs.unavailable with
    | some err => (.error err, cs)
    | none =>
      if cs.flapps.any (fun a => a.Namespace == ns && a.Name == name) then
        (.ok (), { cs with
          flapps := cs.flapps.filter (fun a => !(a.Namespace == ns && a.Name == name)) })
      else (.error (NewNotFound "flapps.fedlearner.k8s.io" name), cs)

/-- Go `metav1.ListOptions`: the field the handler sets. -/
structure ListOptions where
  FieldSelector : String := ""
deriving DecidableEq, Repr

/-- The selectable fields of an event (`EventToSelectableFields`) among those
the Event structure of this development carries; any other field label is
refused by the server. -/
def eventField (e : Event) (label : String) : Option String :=
  if label = "metadata.name" then some e.Name
  else if label = "metadata.namespace" then some e.Namespace
  else if label = "involvedObject.name" then some e.InvolvedObjectName
  else none

/-- Go `hasTerm.Matches` and `notHasTerm.Matches` on the fields of an event. -/
def Term.Matches (t : Term) (e : Event) : Bool :=
  match eventField e t.field with
  | none => false
  | some v => if t.negated then v != t.value else v == t.value

/-- Whether the server knows every field label of the selector. -/
def fieldLabelsSupported (sel : FieldSelector) : Bool :=
  sel.all (fun t => t.field = "metadata.name" ∨ t.field = "metadata.namespace"
    ∨ t.field = "involvedObject.name")

/-- Go `Events(ns).List(opts)`: the server parses the field selector of the
options and returns the events of the namespace (of all namespaces for
`NamespaceAll`) that every term of the selector matches. -/
def Events.List (cs : Clientset) (ns : String) (opts : ListOptions) :
    Except GoError (List Event) :=
  match requestError cs.unavailable ns none with
  | some err => .error err
  | none =>
    match ParseSelector opts.FieldSelector with
    | .error err => .error (.apiStatus .BadRequest err.Error)
    | .ok sel =>
      if !fieldLabelsSupported sel then
        .error (.apiStatus .BadRequest "field label not supported")
      else
        .ok ((cs.events.filter (fun e => ns = NamespaceAll ∨ e.Namespace = ns)).filter
          (fun e => sel.all (fun t => t.Matches e)))

/-! ## `handler.go` -/

/-- Go `Handler`: the two clients and the two informer factories, each with
the state it gives access to. -/
structure Handler where
  kubeClient : Clientset := {}
  crdClient : CRDClientset := {}
  informerFactory : SharedInformerFactory := {}
  crdInformerFactory : CRDSharedInformerFactory := {}
deriving DecidableEq, Repr

/-- One iteration of the `select` loop of `wait.WaitFor`, which
`cache.WaitForCacheSync` runs through `wait.PollUntil`: either the poll
channel fires and the three `HasSynced` functions are read (pods, namespaces,
FLApps, in the order they are passed), or the stop channel is selected. -/
inductive SyncEvent where
  | tick (pods namespaces flapps : Bool)
  | stop
deriving DecidableEq, Repr

/-- The condition function of `WaitForCacheSync`: every `syncFunc` returns
true. -/
def allSynced (cacheSyncs : List Bool) : Bool := cacheSyncs.all id

/-- Go `cache.WaitForCacheSync(stopCh, cacheSyncs...)` along a schedule of loop
iterations: `some true` when a poll finds every cache synced, `some false`
when the stop channel is selected first, `none` while the call still blocks at
the end of the schedule. -/
def WaitForCacheSync : List SyncEvent → Option Bool
  | [] => none
  | .stop :: _ => some false
  | .tick pods namespaces flapps :: rest =>
    if allSynced [pods, namespaces, flapps] then some true else WaitForCacheSync rest

/-- Go `Handler.Run(stopCh)`: `none` while the call blocks, `some none` for a
nil error, `some (some err)` for the error returned. -/
def Handler.Run (_h : Handler) (schedule : List SyncEvent) : Option (Option GoError) :=
  match WaitForCacheSync schedule with
  | none => none
  | some synced =>
    if !synced then some (some (.plain "timed out waiting for cache to sync"))
    else some none

/-- Go `Handler.handleError(c, err)`. -/
def Handler.handleError (_h : Handler) (c : Context) (err : GoError) : Context :=
  let statusCode := if IsNotFound err then 404 else 500
  c.JSON statusCode [("error", .text err.Error)]

/-- Go `Handler.ListNamespaces(c)`. -/
def Handler.ListNamespaces (h : Handler) (c : Context) : Handler × Context :=
  match NamespaceLister.List h.informerFactory Everything with
  | .error err => (h, h.handleError c err)
  | .ok namespaces => (h, c.JSON 200 [("namespaces", .namespaces namespaces)])

/-- Go `Handler.ListPods(c)`. -/
def Handler.ListPods (h : Handler) (c : Context) : Handler × Context :=
  let ns := c.Param "namespace"
  match PodNamespaceLister.List h.informerFactory ns Everything with
  | .error err => (h, h.handleError c err)
  | .ok pods => (h, c.JSON 200 [("pods", .pods pods)])

/-- Go `Handler.GetPod(c)`. -/
def Handler.GetPod (h : Handler) (c : Context) : Handler × Context :=
  let ns := c.Param "namespace"
  let name := c.Param "name"
  match PodNamespaceLister.Get h.informerFactory ns name with
  | .error err => (h, h.handleError c err)
  | .ok pod => (h, c.JSON 200 [("pod", .pod pod)])

/-- Go `Handler.ListPodEvents(c)`. -/
def Handler.ListPodEvents (h : Handler) (c : Context) : Handler × Context :=
  let ns := c.Param "namespace"
  let name := c.Param "name"
  match Events.List h.kubeClient ns
      { FieldSelector := (OneTermEqualSelector "involvedObject.name" name).String } with
  | .error err => (h, h.handleError c err)
  | .ok events => (h, c.JSON 200 [("events", .events events)])

/-- Go `Handler.GetFLApp(c)`. -/
def Handler.GetFLApp (h : Handler) (c : Context) : Handler × Context :=
  let ns := c.Param "namespace"
  let name := c.Param "name"
  match FLApps.Get h.crdClient ns name with
  | .error err => (h, h.handleError c err)
  | .ok flapp => (h, c.JSON 200 [("flapp", .flapp flapp)])

/-- Go `Handler.ListFLAppPods(c)`. -/
def Handler.ListFLAppPods (h : Handler) (c : Context) : Handler × Context :=
  let ns := c.Param "namespace"
  let name := c.Param "name"
  match PodNamespaceLister.List h.informerFactory ns (AsSelector [("app-name", name)]) with
  | .error err => (h, h.handleError c err)
  | .ok pods => (h, c.JSON 200 [("pods", .pods pods)])

/-- Go `Handler.ListFLApps(c)`. -/
def Handler.ListFLApps (h : Handler) (c : Context) : Handler × Context :=
  let ns := c.Param "namespace"
  match FLApps.List h.crdClient ns with
  | .error err => (h, h.handleError c err)
  | .ok flapps => (h, c.JSON 200 [("flapps", .flapps flapps)])

/-- Go `Handler.CreateFLApp(c)`. -/
def Handler.CreateFLApp (h : Handler) (c : Context) : Handler × Context :=
  let ns := c.Param "namespace"
  match c.BindJSON with
  | (c1, .error err) => (h, h.handleError c1 err)
  | (c1, .ok flapp) =>
    match FLApps.Create h.crdClient ns flapp with
    | (.error err, crd) => ({ h with crdClient := crd }, h.handleError c1 err)
    | (.ok newFlapp, crd) =>
      ({ h with crdClient := crd }, c1.JSON 200 [("flapp", .flapp newFlapp)])

/-- Go `Handler.DeleteFLApp(c)`. -/
def Handler.DeleteFLApp (h : Handler) (c : Context) : Handler × Context :=
  let ns := c.Param "namespace"
  let name := c.Param "name"
  match FLApps.Delete h.crdClient ns name with
  | (.error err, crd) => ({ h with crdClient := crd }, h.handleError c err)
  | (.ok _, crd) => ({ h with crdClient := crd }, c.JSON 200 [])

/-! ## Concrete requests and states used below -/

/-- A create request for namespace "default" whose body fails to decode. -/
def malformedCreateRequest : Context :=
  { Params := [("namespace", "default")]
    body := .malformed (.plain "unexpected EOF") }

/-- A request with the path parameters `namespace` and `name` and a response
that has not been written. -/
def request (ns name : String) : Context :=
  { Params := [("namespace", ns), ("name", name)] }

/-- A job name of 64 characters: a valid object name (a DNS subdomain may have
253) that is not a valid label value (at most 63). -/
def longJobName : String := String.mk (List.replicate 64 'a')

/-- A handler whose caches hold three pods in two namespaces and whose cluster
holds two FLApps and two events. -/
def sampleHandler : Handler :=
  { kubeClient :=
      { events := [{ Namespace := "default", Name := "ev1", InvolvedObjectName := "job1-worker-0" },
                   { Namespace := "kube-system", Name := "ev2", InvolvedObjectName := "job1-worker-0" }] }
    crdClient :=
      { flapps := [{ Namespace := "default", Name := "job1", Spec := "leader" },
                   { Namespace := "default", Name := "job2", Spec := "follower" }] }
    informerFactory :=
      { pods := [{ Namespace := "default", Name := "web-0", Labels := [("app", "web")] },
                 { Namespace := "default", Name := "job1-worker-0", Labels := [("app-name", "job1")] },
                 { Namespace := "kube-system", Name := "job1-worker-1", Labels := [("app-name", "job1")] }]
        namespaces := [{ Name := "default" }, { Name := "kube-system" }] } }

/-! ## The response envelope, as the specification words it -/

/-- The status line and the documents the client received. -/
def Context.response (c : Context) : Option Nat × List H :=
  (c.responseStatus, c.responseBody)

/-- The envelope of the specification for the result of a lister or client
call: on success status 200 and one object with the single key `key` holding
the value returned; on failure status 404 for a NotFound error and 500 for
any other, and one object with the single key "error" holding the message. -/
def envelope {α : Type} (key : String) (wrap : α → Payload) (result : Except GoError α) :
    Option Nat × List H :=
  match result with
  | .ok v => (some 200, [[(key, wrap v)]])
  | .error err => (some (if IsNotFound err then 404 else 500), [[("error", .text err.Error)]])

/-- The envelope of the specification for delete: the empty object on
success. -/
def emptyEnvelope (result : Except GoError Unit) : Option Nat × List H :=
  match result with
  | .ok _ => (some 200, [[]])
  | .error err => (some (if IsNotFound err then 404 else 500), [[("error", .text err.Error)]])

/-! ## Schedules of the cache-sync wait, as the specification words them -/

/-- A loop iteration that decides nothing: a poll that found at least one of
the three caches unsynced. -/
def SyncEvent.unsyncedTick : SyncEvent → Bool
  | .tick pods namespaces flapps => !(pods && namespaces && flapps)
  | .stop => false

/-- All three caches are reported synced by a poll that comes before any stop
signal. -/
def syncedBeforeStop (schedule : List SyncEvent) : Prop :=
  ∃ pre post, schedule = pre ++ SyncEvent.tick true true true :: post ∧
    ∀ e ∈ pre, e.unsyncedTick = true

/-- The stop signal comes while no poll has found all three caches synced. -/
def stoppedBeforeSync (schedule : List SyncEvent) : Prop :=
  ∃ pre post, schedule = pre ++ SyncEvent.stop :: post ∧ ∀ e ∈ pre, e.unsyncedTick = true

/-- The sample handler while the API server behind the FLApp client refuses
connections. -/
def unreachableHandler : Handler :=
  { sampleHandler with
    crdClient := { sampleHandler.crdClient with
      unavailable := some (.plain "dial tcp 10.0.0.1:443: connect: connection refused") } }

/-! # Theorems -/

/-! ## The response written by `Context.JSON` -/

theorem JSON_unwritten (c : Context) (code : Nat) (obj : H)
    (hw : c.Writer.written = false) (hpos : 0 < code)
    (hall : bodyAllowedForStatus code = true) :
    (c.JSON code obj).responseStatus = some code ∧
      (c.JSON code obj).responseBody = c.responseBody ++ [obj] := by
  unfold Context.JSON Context.responseStatus Context.responseBody
  simp only [hall, if_true]
  unfold ResponseWriter.Write ResponseWriter.WriteHeaderNow ResponseWriter.WriteHeader
  by_cases hs : c.Writer.status = code
  · simp [hs, hw]
  · simp [hs, hw, hpos]

theorem JSON_written (c : Context) (code : Nat) (obj : H)
    (hw : c.Writer.written = true) (hall : bodyAllowedForStatus code = true) :
    (c.JSON code obj).responseStatus = c.responseStatus ∧
      (c.JSON code obj).responseBody = c.responseBody ++ [obj] := by
  unfold Context.JSON Context.responseStatus Context.responseBody
  simp only [hall, if_true]
  unfold ResponseWriter.Write ResponseWriter.WriteHeaderNow ResponseWriter.WriteHeader
  by_cases hs : 0 < code ∧ c.Writer.status ≠ code
  · simp [hs, hw]
  · simp [hs, hw]

theorem handleError_unwritten (h : Handler) (c : Context) (err : GoError)
    (hw : c.Writer.written = false) :
    (h.handleError c err).responseStatus = some (if IsNotFound err then 404 else 500) ∧
      (h.handleError c err).responseBody = c.responseBody ++ [[("error", .text err.Error)]] := by
  unfold Handler.handleError
  by_cases hn : IsNotFound err = true
  · simp only [hn, if_true]
    exact JSON_unwritten c 404 _ hw (by decide) (by decide)
  · simp only [hn]
    exact JSON_unwritten c 500 _ hw (by decide) (by decide)

/-- On a response that has not been written yet, `handleError` answers 404
exactly when the error is a Kubernetes NotFound error and 500 for every other
error, and the body is the object with the single key "error" holding
`err.Error()`. -/
theorem handleError_status_and_body (h : Handler) (c : Context) (err : GoError)
    (hw : c.Writer.written = false) (hb : c.responseBody = []) :
    ((h.handleError c err).responseStatus = some 404 ↔ IsNotFound err = true) ∧
      (IsNotFound err = false → (h.handleError c err).responseStatus = some 500) ∧
      (h.handleError c err).responseBody = [[("error", .text err.Error)]] := by
  obtain ⟨hs, hbody⟩ := handleError_unwritten h c err hw
  refine ⟨?_, ?_, ?_⟩
  · rw [hs]
    by_cases hn : IsNotFound err = true <;> simp [hn]
  · intro hn
    rw [hs]
    simp [hn]
  · rw [hbody, hb]
    rfl

/-! ## `CreateFLApp` with a body that does not decode -/

theorem AbortWithError_unwritten (c : Context) (code : Nat) (err : GoError)
    (hw : c.Writer.written = false) (hpos : 0 < code) :
    (c.AbortWithError code err).Writer.written = true ∧
      (c.AbortWithError code err).responseStatus = some code ∧
      (c.AbortWithError code err).responseBody = c.responseBody := by
  unfold Context.AbortWithError Context.responseStatus Context.responseBody
  unfold ResponseWriter.WriteHeaderNow ResponseWriter.WriteHeader
  by_cases hs : c.Writer.status = code
  · simp [hs, hw]
  · simp [hs, hw, hpos]

theorem handleError_written (h : Handler) (c : Context) (err : GoError)
    (hw : c.Writer.written = true) :
    (h.handleError c err).responseStatus = c.responseStatus ∧
      (h.handleError c err).responseBody = c.responseBody ++ [[("error", .text err.Error)]] := by
  have hcode : bodyAllowedForStatus (if IsNotFound err then 404 else 500) = true := by
    by_cases hn : IsNotFound err = true <;> simp [hn] <;> decide
  exact JSON_written c (if IsNotFound err then 404 else 500) [("error", .text err.Error)] hw hcode

/-- C1: `handleError` as `CreateFLApp` calls it at line 175, with the error of
a body that failed to decode and the context that `BindJSON` returns: the
client receives status 400, which is neither the 404 nor the 500 that
`handleError` computes for the error; the body is the object with the single
key "error" holding `err.Error()`. -/
theorem handleError_after_failed_bind (h : Handler) (c : Context) (err : GoError)
    (hbody : c.body = .malformed err) (hw : c.Writer.written = false)
    (hb : c.responseBody = []) :
    c.BindJSON.2 = .error err ∧
      (h.handleError c.BindJSON.1 err).responseStatus = some 400 ∧
      (h.handleError c.BindJSON.1 err).responseStatus
        ≠ some (if IsNotFound err then 404 else 500) ∧
      (h.handleError c.BindJSON.1 err).responseBody = [[("error", .text err.Error)]] := by
  have hbind : c.BindJSON = (c.AbortWithError 400 err, .error err) := by
    unfold Context.BindJSON
    simp [hbody]
  obtain ⟨hw1, hs1, hb1⟩ := AbortWithError_unwritten c 400 err hw (by decide)
  obtain ⟨hs2, hb2⟩ := handleError_written h (c.AbortWithError 400 err) err hw1
  rw [hbind]
  refine ⟨rfl, ?_, ?_, ?_⟩
  · show (h.handleError (c.AbortWithError 400 err) err).responseStatus = some 400
    rw [hs2, hs1]
  · show (h.handleError (c.AbortWithError 400 err) err).responseStatus ≠ _
    rw [hs2, hs1]
    by_cases hn : IsNotFound err = true <;> simp [hn]
  · show (h.handleError (c.AbortWithError 400 err) err).responseBody = _
    rw [hb2, hb1, hb]
    rfl

theorem handleError_after_failed_bind_witness :
    malformedCreateRequest.BindJSON.2 = .error (.plain "unexpected EOF") ∧
      (Handler.handleError sampleHandler malformedCreateRequest.BindJSON.1
        (.plain "unexpected EOF")).responseStatus = some 400 ∧
      (Handler.handleError sampleHandler malformedCreateRequest.BindJSON.1
        (.plain "unexpected EOF")).responseStatus
        ≠ some (if IsNotFound (.plain "unexpected EOF") then 404 else 500) ∧
      (Handler.handleError sampleHandler malformedCreateRequest.BindJSON.1
        (.plain "unexpected EOF")).responseBody
        = [[("error", .text (GoError.plain "unexpected EOF").Error)]] :=
  handleError_after_failed_bind sampleHandler malformedCreateRequest (.plain "unexpected EOF")
    (by decide) (by decide) (by decide)

/-- C2: on a response not yet written, `CreateFLApp` with a body that fails to
decode makes the client receive status 400, not 500: `BindJSON` has written
the header before `handleError` asks for 500.  The body is the object with the
single key "error" holding the message of the decode error, and the state is
returned as it was, so the cluster client is never called. -/
theorem CreateFLApp_malformed (h : Handler) (c : Context) (err : GoError)
    (hbody : c.body = .malformed err) (hw : c.Writer.written = false)
    (hb : c.responseBody = []) :
    (h.CreateFLApp c).1 = h ∧
      (h.CreateFLApp c).2.responseStatus = some 400 ∧
      (h.CreateFLApp c).2.responseBody = [[("error", .text err.Error)]] := by
  obtain ⟨hw1, hs1, hb1⟩ := AbortWithError_unwritten c 400 err hw (by decide)
  have hcode : bodyAllowedForStatus (if IsNotFound err then 404 else 500) = true := by
    by_cases hn : IsNotFound err = true <;> simp [hn] <;> decide
  obtain ⟨hs2, hb2⟩ := JSON_written (c.AbortWithError 400 err)
    (if IsNotFound err then 404 else 500) [("error", .text err.Error)] hw1 hcode
  have hrun : h.CreateFLApp c = (h, h.handleError (c.AbortWithError 400 err) err) := by
    unfold Handler.CreateFLApp Context.BindJSON
    simp [hbody]
  rw [hrun]
  refine ⟨rfl, ?_, ?_⟩
  · show (h.handleError (c.AbortWithError 400 err) err).responseStatus = some 400
    unfold Handler.handleError
    rw [hs2, hs1]
  · show (h.handleError (c.AbortWithError 400 err) err).responseBody = _
    unfold Handler.handleError
    rw [hb2, hb1, hb]
    rfl

theorem CreateFLApp_malformed_witness :
    (Handler.CreateFLApp sampleHandler malformedCreateRequest).1 = sampleHandler ∧
      (Handler.CreateFLApp sampleHandler malformedCreateRequest).2.responseStatus = some 400 ∧
      (Handler.CreateFLApp sampleHandler malformedCreateRequest).2.responseBody
        = [[("error", .text (GoError.plain "unexpected EOF").Error)]] :=
  CreateFLApp_malformed sampleHandler malformedCreateRequest (.plain "unexpected EOF")
    (by decide) (by decide) (by decide)

/-! ## `ListFLAppPods` -/

theorem AsSelector_valid (name : String) (hv : IsValidLabelValue name = true) :
    AsSelector [("app-name", name)] = [{ key := "app-name", value := name }] := by
  have hk : IsQualifiedName "app-name" = true := by decide
  simp [AsSelector, SelectorFromSet, SelectorFromSetLoop, NewRequirement, hk, hv]

theorem AsSelector_invalid (name : String) (hv : IsValidLabelValue name = false) :
    AsSelector [("app-name", name)] = Everything := by
  have hk : IsQualifiedName "app-name" = true := by decide
  simp [AsSelector, SelectorFromSet, SelectorFromSetLoop, NewRequirement, hk, hv, Everything]

theorem mem_ListAllByNamespace (indexer : List Pod) (ns : String) (selector : Selector)
    (hns : ns ≠ "") (p : Pod) :
    p ∈ ListAllByNamespace indexer ns selector ↔
      p ∈ indexer ∧ p.Namespace = ns ∧ (selector.Empty = true ∨ selector.Matches p.Labels = true) := by
  unfold ListAllByNamespace
  simp only [NamespaceAll, hns, if_false, List.mem_filter, beq_iff_eq, Bool.or_eq_true]
  tauto

theorem matches_single (key value : String) (ls : LabelSet) :
    Selector.Matches [{ key := key, value := value }] ls = true ↔ ls.lookup key = some value := by
  unfold Selector.Matches Requirement.Matches
  cases h : List.lookup key ls <;> simp [h]

/-- For a job name that is not a valid label value the selector built by
`ListFLAppPods` is empty, and the handler answers what `ListPods` answers:
the pods are not selected by label. -/
theorem ListFLAppPods_invalid_name (h : Handler) (c : Context)
    (hname : IsValidLabelValue (c.Param "name") = false) :
    h.ListFLAppPods c = h.ListPods c := by
  unfold Handler.ListFLAppPods Handler.ListPods
  dsimp only
  rw [AsSelector_invalid _ hname]

/-- C3 (amended): for a non-empty namespace and a job name that is a valid
label value, `ListFLAppPods` answers 200 with the key "pods", and a pod is in
that list exactly when it is a cached pod of the namespace whose label
"app-name" has the job name as value. -/
theorem ListFLAppPods_selects_label (h : Handler) (c : Context)
    (hns : c.Param "namespace" ≠ "")
    (hname : IsValidLabelValue (c.Param "name") = true)
    (hw : c.Writer.written = false) (hb : c.responseBody = []) :
    ∃ pods, (h.ListFLAppPods c).2.responseStatus = some 200 ∧
      (h.ListFLAppPods c).2.responseBody = [[("pods", .pods pods)]] ∧
      ∀ p, p ∈ pods ↔ (p ∈ h.informerFactory.pods ∧ p.Namespace = c.Param "namespace" ∧
        p.Labels.lookup "app-name" = some (c.Param "name")) := by
  refine ⟨ListAllByNamespace h.informerFactory.pods (c.Param "namespace")
    (AsSelector [("app-name", c.Param "name")]), ?_, ?_, ?_⟩
  · exact (JSON_unwritten c 200 _ hw (by decide) (by decide)).1
  · have := (JSON_unwritten c 200
      [("pods", .pods (ListAllByNamespace h.informerFactory.pods (c.Param "namespace")
        (AsSelector [("app-name", c.Param "name")])))] hw (by decide) (by decide)).2
    rw [hb] at this
    exact this
  · intro p
    rw [mem_ListAllByNamespace _ _ _ hns, AsSelector_valid _ hname, matches_single]
    simp [Selector.Empty]

theorem ListFLAppPods_selects_label_witness :
    ∃ pods, (sampleHandler.ListFLAppPods (request "default" "job1")).2.responseStatus = some 200 ∧
      (sampleHandler.ListFLAppPods (request "default" "job1")).2.responseBody
        = [[("pods", .pods pods)]] ∧
      ∀ p, p ∈ pods ↔ (p ∈ sampleHandler.informerFactory.pods ∧
        p.Namespace = (request "default" "job1").Param "namespace" ∧
        p.Labels.lookup "app-name" = some ((request "default" "job1").Param "name")) :=
  ListFLAppPods_selects_label sampleHandler (request "default" "job1")
    (by decide) (by decide) (by decide) (by decide)

/-- C3 (counterexample): with the 64-character job name, which is not a valid
label value, `ListFLAppPods` in "default" returns the pod web-0, which has no
"app-name" label; with the empty namespace and job name "job1" it returns the
pod job1-worker-1 of the namespace "kube-system". -/
theorem ListFLAppPods_returns_unlabelled_pod :
    (sampleHandler.ListFLAppPods (request "default" longJobName)).2.responseBody
        = [[("pods", .pods
            [{ Namespace := "default", Name := "web-0", Labels := [("app", "web")] },
             { Namespace := "default", Name := "job1-worker-0",
               Labels := [("app-name", "job1")] }])]] ∧
      List.lookup "app-name" [("app", "web")] = none ∧
      (sampleHandler.ListFLAppPods (request "" "job1")).2.responseBody
        = [[("pods", .pods
            [{ Namespace := "default", Name := "job1-worker-0",
               Labels := [("app-name", "job1")] },
             { Namespace := "kube-system", Name := "job1-worker-1",
               Labels := [("app-name", "job1")] }])]] := by
  decide
/-! ## `GetPod` and `GetFLApp` on an absent object -/

theorem NewNotFound_isNotFound (resource name : String) :
    IsNotFound (NewNotFound resource name) = true := rfl

theorem NewNotFound_message_ne_empty (resource name : String) :
    (NewNotFound resource name).Error ≠ "" := by
  intro h
  have := congrArg String.length h
  simp [NewNotFound, GoError.Error, String.length_append] at this
  exact absurd this.2 (by decide)

theorem refusal_is_plain (verb : Verb) (ns : String) (name : Option String) (err : GoError)
    (href : Request.refusal verb ns name = some err) : IsNotFound err = false := by
  unfold Request.refusal at href
  split at href
  · rename_i e he
    unfold Request.Namespace at he
    split at he
    · cases he
      cases href
      rfl
    · cases he
  · split at href
    · rename_i e he
      cases name with
      | none => cases he
      | some n =>
        simp only [Option.bind] at he
        unfold Request.Name at he
        split at he
        · cases he
          cases href
          rfl
        · split at he
          · cases he
            cases href
            rfl
          · cases he
    · split at href
      · cases href
        rfl
      · split at href
        · cases href
          rfl
        · cases href

theorem PodNamespaceLister_Get_absent (f : SharedInformerFactory) (ns name : String)
    (habs : ∀ p ∈ f.pods, ¬ (p.Namespace = ns ∧ p.Name = name)) :
    PodNamespaceLister.Get f ns name = .error (NewNotFound "pod" name) := by
  unfold PodNamespaceLister.Get
  have : f.pods.find? (fun p => p.Namespace == ns && p.Name == name) = none := by
    rw [List.find?_eq_none]
    intro p hp
    simpa using habs p hp
  rw [this]

theorem FLApps_Get_absent (cs : CRDClientset) (ns name : String)
    (href : Request.refusal .GET ns (some name) = none) (hav : cs.unavailable = none)
    (habs : ∀ a ∈ cs.flapps, ¬ (a.Namespace = ns ∧ a.Name = name)) :
    FLApps.Get cs ns name = .error (NewNotFound "flapps.fedlearner.k8s.io" name) := by
  unfold FLApps.Get
  have : cs.flapps.find? (fun a => a.Namespace == ns && a.Name == name) = none := by
    rw [List.find?_eq_none]
    intro a ha
    simpa using habs a ha
  simp only [href, hav, this]

theorem FLApps_Get_refused (cs : CRDClientset) (ns name : String) (err : GoError)
    (href : Request.refusal .GET ns (some name) = some err) :
    FLApps.Get cs ns name = .error err := by
  unfold FLApps.Get
  simp only [href]

/-- C4 (amended): on a response not yet written, `GetPod` for a namespace and
name that no cached pod has answers 404 with the single key "error" and a
non-empty message.  `GetFLApp` for a namespace and name that no stored FLApp
has does the same when the REST client does not refuse the request and the
server serves it.  When the REST client refuses the request (a namespace or
name that is empty, `.` or `..`, or contains `/` or `%`), `GetFLApp` answers
500 with the single key "error" holding the message of the refusal. -/
theorem Get_absent_is_404 (h : Handler) (c : Context)
    (hw : c.Writer.written = false) (hb : c.responseBody = []) :
    ((∀ p ∈ h.informerFactory.pods,
          ¬ (p.Namespace = c.Param "namespace" ∧ p.Name = c.Param "name")) →
        (h.GetPod c).2.responseStatus = some 404 ∧
        ∃ msg, msg ≠ "" ∧ (h.GetPod c).2.responseBody = [[("error", .text msg)]]) ∧
      ((∀ a ∈ h.crdClient.flapps,
          ¬ (a.Namespace = c.Param "namespace" ∧ a.Name = c.Param "name")) →
        Request.refusal .GET (c.Param "namespace") (some (c.Param "name")) = none →
        h.crdClient.unavailable = none →
        (h.GetFLApp c).2.responseStatus = some 404 ∧
        ∃ msg, msg ≠ "" ∧ (h.GetFLApp c).2.responseBody = [[("error", .text msg)]]) ∧
      (∀ err, Request.refusal .GET (c.Param "namespace") (some (c.Param "name")) = some err →
        (h.GetFLApp c).2.responseStatus = some 500 ∧
        (h.GetFLApp c).2.responseBody = [[("error", .text err.Error)]]) := by
  have key : ∀ err : GoError, IsNotFound err = true → err.Error ≠ "" →
      (h.handleError c err).responseStatus = some 404 ∧
        ∃ msg, msg ≠ "" ∧ (h.handleError c err).responseBody = [[("error", .text msg)]] := by
    intro err hnf hmsg
    obtain ⟨hs, hbody⟩ := handleError_unwritten h c err hw
    refine ⟨by rw [hs]; simp [hnf], err.Error, hmsg, ?_⟩
    rw [hbody, hb]
    rfl
  refine ⟨?_, ?_, ?_⟩
  · intro habs
    have hget := PodNamespaceLister_Get_absent h.informerFactory _ _ habs
    have hrun : h.GetPod c = (h, h.handleError c (NewNotFound "pod" (c.Param "name"))) := by
      unfold Handler.GetPod
      simp [hget]
    rw [hrun]
    exact key _ (NewNotFound_isNotFound _ _) (NewNotFound_message_ne_empty _ _)
  · intro habs href hav
    have hget := FLApps_Get_absent h.crdClient _ _ href hav habs
    have hrun : h.GetFLApp c
        = (h, h.handleError c (NewNotFound "flapps.fedlearner.k8s.io" (c.Param "name"))) := by
      unfold Handler.GetFLApp
      simp [hget]
    rw [hrun]
    exact key _ (NewNotFound_isNotFound _ _) (NewNotFound_message_ne_empty _ _)
  · intro err href
    have hget := FLApps_Get_refused h.crdClient _ _ err href
    have hrun : h.GetFLApp c = (h, h.handleError c err) := by
      unfold Handler.GetFLApp
      simp [hget]
    rw [hrun]
    obtain ⟨hs, hbody⟩ := handleError_unwritten h c err hw
    refine ⟨?_, ?_⟩
    · show (h.handleError c err).responseStatus = some 500
      rw [hs, refusal_is_plain _ _ _ err href]
      rfl
    · show (h.handleError c err).responseBody = _
      rw [hbody, hb]
      rfl

theorem Get_absent_is_404_witness :
    ((sampleHandler.GetPod (request "default" "nope")).2.responseStatus = some 404 ∧
        ∃ msg, msg ≠ "" ∧ (sampleHandler.GetPod (request "default" "nope")).2.responseBody
          = [[("error", .text msg)]]) ∧
      ((sampleHandler.GetFLApp (request "default" "nope")).2.responseStatus = some 404 ∧
        ∃ msg, msg ≠ "" ∧ (sampleHandler.GetFLApp (request "default" "nope")).2.responseBody
          = [[("error", .text msg)]]) ∧
      ((sampleHandler.GetFLApp (request "" "nope")).2.responseStatus = some 500 ∧
        (sampleHandler.GetFLApp (request "" "nope")).2.responseBody
          = [[("error", .text (GoError.plain
              "an empty namespace may not be set when a resource name is provided").Error)]]) :=
  ⟨(Get_absent_is_404 sampleHandler (request "default" "nope") (by decide) (by decide)).1
      (by decide),
    (Get_absent_is_404 sampleHandler (request "default" "nope") (by decide) (by decide)).2.1
      (by decide) (by decide) (by decide),
    (Get_absent_is_404 sampleHandler (request "" "nope") (by decide) (by decide)).2.2
      _ (by decide)⟩

/-- C4 (counterexample): no FLApp named "a%b" is stored in "default", yet
`GetFLApp` for it answers 500: the REST client refuses the name before any
request is sent.  It also answers 500 for the absent "nope" when the
parameter `namespace` is empty, and while the server refuses connections. -/
theorem GetFLApp_absent_answers_500 :
    (∀ a ∈ sampleHandler.crdClient.flapps, ¬ (a.Namespace = "default" ∧ a.Name = "a%b")) ∧
      (sampleHandler.GetFLApp (request "default" "a%b")).2.response
        = (some 500,
            [[("error", .text "invalid resource name \"a%b\": [may not contain '%']")]]) ∧
      (sampleHandler.GetFLApp (request "" "nope")).2.responseStatus = some 500 ∧
      (unreachableHandler.GetFLApp (request "default" "nope")).2.responseStatus = some 500 := by
  decide

/-! ## `DeleteFLApp` followed by `GetFLApp` -/

theorem find_filter_of_imp {α : Type} (p q : α → Bool) (l : List α)
    (hpq : ∀ x, p x = true → q x = true) :
    (l.filter q).find? p = l.find? p := by
  induction l with
  | nil => rfl
  | cons x xs ih =>
    by_cases hq : q x = true
    · rw [List.filter_cons_of_pos hq, List.find?_cons, List.find?_cons, ih]
    · have hp : p x = false := by
        cases hpx : p x
        · rfl
        · exact absurd (hpq x hpx) hq
      rw [List.filter_cons_of_neg hq, List.find?_cons, hp, ih]

theorem refusal_GET_eq_DELETE (ns name : String) :
    Request.refusal .GET ns (some name) = Request.refusal .DELETE ns (some name) := by
  unfold Request.refusal
  simp

theorem FLApps_Delete_existing (cs : CRDClientset) (ns name : String)
    (href : Request.refusal .DELETE ns (some name) = none) (hav : cs.unavailable = none)
    (hex : ∃ a ∈ cs.flapps, a.Namespace = ns ∧ a.Name = name) :
    FLApps.Delete cs ns name = (.ok (),
      { cs with flapps := cs.flapps.filter (fun a => !(a.Namespace == ns && a.Name == name)) }) := by
  unfold FLApps.Delete
  have hany : cs.flapps.any (fun a => a.Namespace == ns && a.Name == name) = true := by
    rw [List.any_eq_true]
    obtain ⟨a, ha, h1, h2⟩ := hex
    exact ⟨a, ha, by simp [h1, h2]⟩
  simp only [href, hav, hany, if_true]

/-- The store after the removal of one key: a get for that key finds
nothing. -/
theorem FLApps_Get_removed (cs : CRDClientset) (ns name : String)
    (href : Request.refusal .GET ns (some name) = none) (hav : cs.unavailable = none) :
    FLApps.Get { cs with
        flapps := cs.flapps.filter (fun a => !(a.Namespace == ns && a.Name == name)) } ns name
      = .error (NewNotFound "flapps.fedlearner.k8s.io" name) := by
  refine FLApps_Get_absent (CRDClientset.mk _ cs.unavailable) ns name href hav ?_
  intro a ha hcon
  have hna := (List.mem_filter.mp ha).2
  rw [hcon.1, hcon.2] at hna
  exact absurd hna (by simp)

/-- The store after the removal of one key: a get for any other key answers
what it answered before. -/
theorem FLApps_Get_other (cs : CRDClientset) (ns name ns2 name2 : String)
    (hne : ¬ (ns2 = ns ∧ name2 = name)) :
    FLApps.Get { cs with
        flapps := cs.flapps.filter (fun a => !(a.Namespace == ns && a.Name == name)) } ns2 name2
      = FLApps.Get cs ns2 name2 := by
  unfold FLApps.Get
  simp only
  rw [find_filter_of_imp]
  intro a ha
  simp only [Bool.and_eq_true, beq_iff_eq] at ha
  simp only [Bool.not_eq_true', Bool.and_eq_false_iff, beq_eq_false_iff_ne, ne_eq]
  by_contra hcon
  push_neg at hcon
  exact hne ⟨ha.1 ▸ hcon.1, ha.2 ▸ hcon.2⟩

/-- A get for the key of a stored FLApp, when the client does not refuse the
request and the server serves it, returns a stored FLApp with that key. -/
theorem FLApps_Get_stored (cs : CRDClientset) (ns name : String)
    (href : Request.refusal .GET ns (some name) = none) (hav : cs.unavailable = none)
    (hex : ∃ a ∈ cs.flapps, a.Namespace = ns ∧ a.Name = name) :
    ∃ b ∈ cs.flapps, b.Namespace = ns ∧ b.Name = name ∧ FLApps.Get cs ns name = .ok b := by
  unfold FLApps.Get
  simp only [href, hav]
  cases hfind : cs.flapps.find? (fun a => a.Namespace == ns && a.Name == name) with
  | none =>
    rw [List.find?_eq_none] at hfind
    obtain ⟨a, ha, h1, h2⟩ := hex
    exact absurd (by simp [h1, h2]) (hfind a ha)
  | some b =>
    have hp := List.find?_some hfind
    simp only [Bool.and_eq_true, beq_iff_eq] at hp
    exact ⟨b, List.mem_of_find?_eq_some hfind, hp.1, hp.2, rfl⟩

/-- C5 (amended): when an FLApp with the namespace and name of the request is
stored, the REST client does not refuse the request and the server serves it,
`DeleteFLApp` answers 200 with the empty object and `GetFLApp` for the same key
(namespace and name) on the resulting state answers 404.  A stored FLApp with
another namespace or name is still returned: `GetFLApp` for its key answers
200 with a stored FLApp of that key under "flapp", on the resulting state as
on the state before; and for every other request `GetFLApp` answers on the
resulting state what it answers on the state before. -/
theorem Delete_then_Get_is_404 (h : Handler) (c : Context)
    (hex : ∃ a ∈ h.crdClient.flapps,
      a.Namespace = c.Param "namespace" ∧ a.Name = c.Param "name")
    (href : Request.refusal .DELETE (c.Param "namespace") (some (c.Param "name")) = none)
    (hav : h.crdClient.unavailable = none)
    (hw : c.Writer.written = false) (hb : c.responseBody = []) :
    (h.DeleteFLApp c).2.response = (some 200, [[]]) ∧
      (∀ c2 : Context, c2.Param "namespace" = c.Param "namespace" →
        c2.Param "name" = c.Param "name" → c2.Writer.written = false →
        ((h.DeleteFLApp c).1.GetFLApp c2).2.responseStatus = some 404) ∧
      (∀ c2 : Context, ¬ (c2.Param "namespace" = c.Param "namespace" ∧
          c2.Param "name" = c.Param "name") →
        (∃ a ∈ h.crdClient.flapps,
          a.Namespace = c2.Param "namespace" ∧ a.Name = c2.Param "name") →
        Request.refusal .GET (c2.Param "namespace") (some (c2.Param "name")) = none →
        c2.Writer.written = false → c2.responseBody = [] →
        ∃ b ∈ h.crdClient.flapps, b.Namespace = c2.Param "namespace" ∧
          b.Name = c2.Param "name" ∧
          ((h.DeleteFLApp c).1.GetFLApp c2).2.response = (some 200, [[("flapp", .flapp b)]]) ∧
          (h.GetFLApp c2).2.response = (some 200, [[("flapp", .flapp b)]])) ∧
      (∀ c2 : Context, ¬ (c2.Param "namespace" = c.Param "namespace" ∧
          c2.Param "name" = c.Param "name") →
        ((h.DeleteFLApp c).1.GetFLApp c2).2 = (h.GetFLApp c2).2) := by
  have hdel := FLApps_Delete_existing h.crdClient _ _ href hav hex
  have hrun : h.DeleteFLApp c = ({ h with crdClient := { h.crdClient with
        flapps := h.crdClient.flapps.filter
          (fun a => !(a.Namespace == c.Param "namespace" && a.Name == c.Param "name")) } },
      c.JSON 200 []) := by
    unfold Handler.DeleteFLApp
    simp [hdel]
  rw [hrun]
  obtain ⟨hs, hbody⟩ := JSON_unwritten c 200 [] hw (by decide) (by decide)
  have hgetref : Request.refusal .GET (c.Param "namespace") (some (c.Param "name")) = none := by
    rw [refusal_GET_eq_DELETE]
    exact href
  refine ⟨?_, ?_, ?_, ?_⟩
  · show ((c.JSON 200 []).responseStatus, (c.JSON 200 []).responseBody) = _
    rw [hs, hbody, hb]
    rfl
  · intro c2 h1 h2 hw2
    have hget := FLApps_Get_removed h.crdClient _ _ hgetref hav
    show (Handler.GetFLApp _ c2).2.responseStatus = some 404
    unfold Handler.GetFLApp
    simp only [h1, h2, hget]
    have := (handleError_unwritten h c2
      (NewNotFound "flapps.fedlearner.k8s.io" (c.Param "name")) hw2).1
    simpa [Handler.handleError, NewNotFound_isNotFound] using this
  · intro c2 hne hex2 href2 hw2 hb2
    obtain ⟨b, hbmem, hb1, hb2n, hgetb⟩ := FLApps_Get_stored h.crdClient _ _ href2 hav hex2
    have hother := FLApps_Get_other h.crdClient (c.Param "namespace") (c.Param "name")
      (c2.Param "namespace") (c2.Param "name") hne
    obtain ⟨hs2, hbody2⟩ := JSON_unwritten c2 200 [("flapp", .flapp b)] hw2
      (by decide) (by decide)
    refine ⟨b, hbmem, hb1, hb2n, ?_, ?_⟩
    · show (Handler.GetFLApp _ c2).2.response = _
      unfold Handler.GetFLApp
      simp only [hother, hgetb]
      show ((c2.JSON 200 [("flapp", .flapp b)]).responseStatus,
        (c2.JSON 200 [("flapp", .flapp b)]).responseBody) = _
      rw [hs2, hbody2, hb2]
      rfl
    · unfold Handler.GetFLApp
      simp only [hgetb]
      show ((c2.JSON 200 [("flapp", .flapp b)]).responseStatus,
        (c2.JSON 200 [("flapp", .flapp b)]).responseBody) = _
      rw [hs2, hbody2, hb2]
      rfl
  · intro c2 hne
    have hother := FLApps_Get_other h.crdClient (c.Param "namespace") (c.Param "name")
      (c2.Param "namespace") (c2.Param "name") hne
    show (Handler.GetFLApp _ c2).2 = (h.GetFLApp c2).2
    unfold Handler.GetFLApp
    simp only [hother]
    cases FLApps.Get h.crdClient (c2.Param "namespace") (c2.Param "name") <;> rfl

theorem Delete_then_Get_is_404_witness :
    (sampleHandler.DeleteFLApp (request "default" "job1")).2.response = (some 200, [[]]) ∧
      ((sampleHandler.DeleteFLApp (request "default" "job1")).1.GetFLApp
        (request "default" "job1")).2.responseStatus = some 404 ∧
      (∃ b ∈ sampleHandler.crdClient.flapps,
        b.Namespace = (request "default" "job2").Param "namespace" ∧
        b.Name = (request "default" "job2").Param "name" ∧
        ((sampleHandler.DeleteFLApp (request "default" "job1")).1.GetFLApp
          (request "default" "job2")).2.response = (some 200, [[("flapp", .flapp b)]]) ∧
        (sampleHandler.GetFLApp (request "default" "job2")).2.response
          = (some 200, [[("flapp", .flapp b)]])) :=
  ⟨(Delete_then_Get_is_404 sampleHandler (request "default" "job1")
      (by decide) (by decide) (by decide) (by decide) (by decide)).1,
    (Delete_then_Get_is_404 sampleHandler (request "default" "job1")
      (by decide) (by decide) (by decide) (by decide) (by decide)).2.1
      (request "default" "job1") rfl rfl (by decide),
    (Delete_then_Get_is_404 sampleHandler (request "default" "job1")
      (by decide) (by decide) (by decide) (by decide) (by decide)).2.2.1
      (request "default" "job2") (by decide) (by decide) (by decide) (by decide) (by decide)⟩

/-- C5 (counterexample): the FLApp job1 of "default" is stored, but while the
server refuses connections `DeleteFLApp` for it answers 500 with the transport
error, not 200 with the empty object; nothing is removed, and the `GetFLApp`
that follows answers 500, not 404. -/
theorem DeleteFLApp_unreachable_answers_500 :
    (∃ a ∈ unreachableHandler.crdClient.flapps, a.Namespace = "default" ∧ a.Name = "job1") ∧
      (unreachableHandler.DeleteFLApp (request "default" "job1")).2.response
        = (some 500,
            [[("error", .text "dial tcp 10.0.0.1:443: connect: connection refused")]]) ∧
      (unreachableHandler.DeleteFLApp (request "default" "job1")).1 = unreachableHandler ∧
      ((unreachableHandler.DeleteFLApp (request "default" "job1")).1.GetFLApp
        (request "default" "job1")).2.responseStatus = some 500 := by
  decide

/-! ## The envelope of every handler -/

theorem respond_envelope {α : Type} (h : Handler) (c : Context) (key : String)
    (wrap : α → Payload) (result : Except GoError α)
    (hw : c.Writer.written = false) (hb : c.responseBody = []) :
    (match result with
      | .error err => h.handleError c err
      | .ok v => c.JSON 200 [(key, wrap v)]).response = envelope key wrap result := by
  cases result with
  | error err =>
    obtain ⟨hs, hbody⟩ := handleError_unwritten h c err hw
    simp only [envelope, Context.response, hs, hbody, hb]
    rfl
  | ok v =>
    obtain ⟨hs, hbody⟩ := JSON_unwritten c 200 [(key, wrap v)] hw (by decide) (by decide)
    simp only [envelope, Context.response, hs, hbody, hb]
    rfl

/-- On a response not yet written, each handler answers with the envelope of
the result of its lister or client call: status 200 and the fixed key on
success, the error object with 404 or 500 on failure; `CreateFLApp` does so
when the body decodes, `DeleteFLApp` answers the empty object on success. -/
theorem handler_envelope (h : Handler) (c : Context)
    (hw : c.Writer.written = false) (hb : c.responseBody = []) :
    (h.ListNamespaces c).2.response
        = envelope "namespaces" .namespaces (NamespaceLister.List h.informerFactory Everything) ∧
      (h.ListPods c).2.response = envelope "pods" .pods
        (PodNamespaceLister.List h.informerFactory (c.Param "namespace") Everything) ∧
      (h.GetPod c).2.response = envelope "pod" .pod
        (PodNamespaceLister.Get h.informerFactory (c.Param "namespace") (c.Param "name")) ∧
      (h.ListPodEvents c).2.response = envelope "events" .events
        (Events.List h.kubeClient (c.Param "namespace")
          { FieldSelector :=
              (OneTermEqualSelector "involvedObject.name" (c.Param "name")).String }) ∧
      (h.GetFLApp c).2.response = envelope "flapp" .flapp
        (FLApps.Get h.crdClient (c.Param "namespace") (c.Param "name")) ∧
      (h.ListFLAppPods c).2.response = envelope "pods" .pods
        (PodNamespaceLister.List h.informerFactory (c.Param "namespace")
          (AsSelector [("app-name", c.Param "name")])) ∧
      (h.ListFLApps c).2.response = envelope "flapps" .flapps
        (FLApps.List h.crdClient (c.Param "namespace")) ∧
      (∀ flapp, c.body = .flapp flapp → (h.CreateFLApp c).2.response
        = envelope "flapp" .flapp (FLApps.Create h.crdClient (c.Param "namespace") flapp).1) ∧
      (h.DeleteFLApp c).2.response
        = emptyEnvelope (FLApps.Delete h.crdClient (c.Param "namespace") (c.Param "name")).1 := by
  refine ⟨?_, ?_, ?_, ?_, ?_, ?_, ?_, ?_, ?_⟩
  · rw [← respond_envelope h c "namespaces" .namespaces _ hw hb]
    unfold Handler.ListNamespaces
    try dsimp only
    generalize NamespaceLister.List h.informerFactory Everything = r
    cases r <;> rfl
  · rw [← respond_envelope h c "pods" .pods _ hw hb]
    unfold Handler.ListPods
    try dsimp only
    generalize PodNamespaceLister.List h.informerFactory (c.Param "namespace") Everything = r
    cases r <;> rfl
  · rw [← respond_envelope h c "pod" .pod _ hw hb]
    unfold Handler.GetPod
    try dsimp only
    generalize PodNamespaceLister.Get h.informerFactory (c.Param "namespace") (c.Param "name") = r
    cases r <;> rfl
  · rw [← respond_envelope h c "events" .events _ hw hb]
    unfold Handler.ListPodEvents
    try dsimp only
    generalize Events.List h.kubeClient (c.Param "namespace")
      { FieldSelector :=
          (OneTermEqualSelector "involvedObject.name" (c.Param "name")).String } = r
    cases r <;> rfl
  · rw [← respond_envelope h c "flapp" .flapp _ hw hb]
    unfold Handler.GetFLApp
    try dsimp only
    generalize FLApps.Get h.crdClient (c.Param "namespace") (c.Param "name") = r
    cases r <;> rfl
  · rw [← respond_envelope h c "pods" .pods _ hw hb]
    unfold Handler.ListFLAppPods
    try dsimp only
    generalize PodNamespaceLister.List h.informerFactory (c.Param "namespace")
      (AsSelector [("app-name", c.Param "name")]) = r
    cases r <;> rfl
  · rw [← respond_envelope h c "flapps" .flapps _ hw hb]
    unfold Handler.ListFLApps
    try dsimp only
    generalize FLApps.List h.crdClient (c.Param "namespace") = r
    cases r <;> rfl
  · intro flapp hbody
    rw [← respond_envelope h c "flapp" .flapp _ hw hb]
    unfold Handler.CreateFLApp Context.BindJSON
    simp only [hbody]
    generalize FLApps.Create h.crdClient (c.Param "namespace") flapp = res
    rcases res with ⟨r, crd⟩
    cases r <;> rfl
  · unfold Handler.DeleteFLApp
    try dsimp only
    generalize FLApps.Delete h.crdClient (c.Param "namespace") (c.Param "name") = res
    rcases res with ⟨r, crd⟩
    cases r with
    | error err =>
      obtain ⟨hs, hbody⟩ := handleError_unwritten h c err hw
      simp only [emptyEnvelope, Context.response, hs, hbody, hb]
      rfl
    | ok v =>
      obtain ⟨hs, hbody⟩ := JSON_unwritten c 200 [] hw (by decide) (by decide)
      simp only [emptyEnvelope, Context.response, hs, hbody, hb]
      rfl

/-- C6: `CreateFLApp` on the sample cluster with a body that fails to decode
makes the client receive status 400, which is none of 200, 404 and 500; the
body is still the error object. -/
theorem CreateFLApp_status_outside_200_404_500 :
    (sampleHandler.CreateFLApp malformedCreateRequest).2.response
        = (some 400, [[("error", .text "unexpected EOF")]]) ∧
      (400 : Nat) ∉ [200, 404, 500] := by
  decide
/-! ## `Run` -/

theorem WaitForCacheSync_skip_unsynced (pre rest : List SyncEvent)
    (hpre : ∀ e ∈ pre, e.unsyncedTick = true) :
    WaitForCacheSync (pre ++ rest) = WaitForCacheSync rest := by
  induction pre with
  | nil => rfl
  | cons e es ih =>
    have he := hpre e (List.mem_cons_self _ _)
    have hes : ∀ x ∈ es, x.unsyncedTick = true := fun x hx => hpre x (List.mem_cons_of_mem _ hx)
    cases e with
    | stop => exact absurd he (by decide)
    | tick p n f =>
      have hns : allSynced [p, n, f] = false := by
        cases p <;> cases n <;> cases f <;> first | rfl | exact absurd he (by decide)
      simp only [List.cons_append, WaitForCacheSync, hns]
      exact ih hes

theorem WaitForCacheSync_none (schedule : List SyncEvent) :
    WaitForCacheSync schedule = none ↔ ∀ e ∈ schedule, e.unsyncedTick = true := by
  induction schedule with
  | nil => simp [WaitForCacheSync]
  | cons e es ih =>
    cases e with
    | stop => simp [WaitForCacheSync, SyncEvent.unsyncedTick]
    | tick p n f =>
      cases p <;> cases n <;> cases f <;>
        simp [WaitForCacheSync, allSynced, SyncEvent.unsyncedTick, ih]

theorem WaitForCacheSync_true (schedule : List SyncEvent) :
    WaitForCacheSync schedule = some true ↔ syncedBeforeStop schedule := by
  constructor
  · intro hrun
    induction schedule with
    | nil => simp [WaitForCacheSync] at hrun
    | cons e es ih =>
      cases e with
      | stop => simp [WaitForCacheSync] at hrun
      | tick p n f =>
        by_cases hall : allSynced [p, n, f] = true
        · have hp : p = true ∧ n = true ∧ f = true := by
            cases p <;> cases n <;> cases f <;> simp [allSynced] at hall ⊢
          obtain ⟨rfl, rfl, rfl⟩ := hp
          exact ⟨[], es, rfl, by simp⟩
        · simp only [WaitForCacheSync, hall] at hrun
          obtain ⟨pre, post, hsplit, hpre⟩ := ih hrun
          refine ⟨SyncEvent.tick p n f :: pre, post, by rw [hsplit]; rfl, ?_⟩
          intro x hx
          rcases List.mem_cons.mp hx with rfl | hx
          · cases p <;> cases n <;> cases f <;> simp [allSynced, SyncEvent.unsyncedTick] at hall ⊢
          · exact hpre x hx
  · rintro ⟨pre, post, rfl, hpre⟩
    rw [WaitForCacheSync_skip_unsynced pre _ hpre]
    rfl

theorem WaitForCacheSync_false (schedule : List SyncEvent) :
    WaitForCacheSync schedule = some false ↔ stoppedBeforeSync schedule := by
  constructor
  · intro hrun
    induction schedule with
    | nil => simp [WaitForCacheSync] at hrun
    | cons e es ih =>
      cases e with
      | stop => exact ⟨[], es, rfl, by simp⟩
      | tick p n f =>
        by_cases hall : allSynced [p, n, f] = true
        · simp [WaitForCacheSync, hall] at hrun
        · simp only [WaitForCacheSync, hall] at hrun
          obtain ⟨pre, post, hsplit, hpre⟩ := ih hrun
          refine ⟨SyncEvent.tick p n f :: pre, post, by rw [hsplit]; rfl, ?_⟩
          intro x hx
          rcases List.mem_cons.mp hx with rfl | hx
          · cases p <;> cases n <;> cases f <;> simp [allSynced, SyncEvent.unsyncedTick] at hall ⊢
          · exact hpre x hx
  · rintro ⟨pre, post, rfl, hpre⟩
    rw [WaitForCacheSync_skip_unsynced pre _ hpre]
    rfl

/-- C7: along every schedule of the cache-sync wait, `Run` returns nil exactly
when a poll reports all three caches synced before any stop signal; it returns
the error "timed out waiting for cache to sync" exactly when the stop signal
comes first; no other error is ever returned; and it is still blocked exactly
when every iteration so far was a poll with a cache unsynced. -/
theorem Run_nil_iff_synced (h : Handler) (schedule : List SyncEvent) :
    (h.Run schedule = some none ↔ syncedBeforeStop schedule) ∧
      (h.Run schedule = some (some (.plain "timed out waiting for cache to sync"))
        ↔ stoppedBeforeSync schedule) ∧
      (∀ err, h.Run schedule = some (some err) →
        err.Error = "timed out waiting for cache to sync") ∧
      (h.Run schedule = none ↔ ∀ e ∈ schedule, e.unsyncedTick = true) := by
  rw [← WaitForCacheSync_true, ← WaitForCacheSync_false, ← WaitForCacheSync_none]
  unfold Handler.Run
  cases hres : WaitForCacheSync schedule with
  | none => simp
  | some b => cases b <;> simp [GoError.Error]
/-! ## `ListPods` and `ListNamespaces` -/

/-- C8 (amended): on a response not yet written, `ListPods` for a namespace
that is not empty answers 200 with the key "pods", and a pod is in that list
exactly when it is a cached pod whose namespace is the one of the request;
`ListNamespaces`, whatever the parameters of the request, answers 200 with the
key "namespaces", and a namespace is in that list exactly when it is cached. -/
theorem ListPods_exactly_namespace (h : Handler) (c : Context)
    (hw : c.Writer.written = false) (hb : c.responseBody = []) :
    (c.Param "namespace" ≠ "" →
        ∃ pods, (h.ListPods c).2.response = (some 200, [[("pods", .pods pods)]]) ∧
          ∀ p, p ∈ pods ↔ (p ∈ h.informerFactory.pods ∧ p.Namespace = c.Param "namespace")) ∧
      (∃ namespaces, (h.ListNamespaces c).2.response
          = (some 200, [[("namespaces", .namespaces namespaces)]]) ∧
        ∀ n, n ∈ namespaces ↔ n ∈ h.informerFactory.namespaces) := by
  obtain ⟨hnss, hpods, _⟩ := handler_envelope h c hw hb
  constructor
  · intro hns
    refine ⟨ListAllByNamespace h.informerFactory.pods (c.Param "namespace") Everything,
      hpods, ?_⟩
    intro p
    rw [mem_ListAllByNamespace _ _ _ hns]
    simp [Everything, Selector.Empty]
  · refine ⟨ListAll h.informerFactory.namespaces Everything, hnss, ?_⟩
    intro n
    simp [ListAll, Everything, Selector.Empty]

theorem ListPods_exactly_namespace_witness :
    (∃ pods, (sampleHandler.ListPods (request "default" "")).2.response
          = (some 200, [[("pods", .pods pods)]]) ∧
        ∀ p, p ∈ pods ↔ (p ∈ sampleHandler.informerFactory.pods ∧
          p.Namespace = (request "default" "").Param "namespace")) ∧
      (∃ namespaces, (sampleHandler.ListNamespaces {}).2.response
          = (some 200, [[("namespaces", .namespaces namespaces)]]) ∧
        ∀ n, n ∈ namespaces ↔ n ∈ sampleHandler.informerFactory.namespaces) :=
  ⟨(ListPods_exactly_namespace sampleHandler (request "default" "")
      (by decide) (by decide)).1 (by decide),
    (ListPods_exactly_namespace sampleHandler {} (by decide) (by decide)).2⟩

/-- C8 (counterexample): `ListPods` with the empty namespace parameter, which
the lister reads as `NamespaceAll`, returns the three cached pods, none of
which has the empty namespace. -/
theorem ListPods_empty_namespace_lists_all :
    (sampleHandler.ListPods (request "" "")).2.response
        = (some 200, [[("pods", .pods sampleHandler.informerFactory.pods)]]) ∧
      sampleHandler.informerFactory.pods.length = 3 ∧
      ∀ p ∈ sampleHandler.informerFactory.pods, p.Namespace ≠ "" := by
  decide

/-! ## Frame -/

theorem FLApps_Create_frame (cs : CRDClientset) (ns : String) (flapp : FLApp) :
    (FLApps.Create cs ns flapp).2.unavailable = cs.unavailable ∧
      ∀ a : FLApp, a.Namespace ≠ ns →
        (a ∈ (FLApps.Create cs ns flapp).2.flapps ↔ a ∈ cs.flapps) := by
  unfold FLApps.Create
  split
  · exact ⟨rfl, fun _ _ => Iff.rfl⟩
  · split
    · exact ⟨rfl, fun _ _ => Iff.rfl⟩
    · split
      · exact ⟨rfl, fun _ _ => Iff.rfl⟩
      · split
        · exact ⟨rfl, fun _ _ => Iff.rfl⟩
        · split
          · exact ⟨rfl, fun _ _ => Iff.rfl⟩
          · refine ⟨rfl, fun a ha => ?_⟩
            simp only [List.mem_append, List.mem_singleton]
            constructor
            · rintro (hmem | heq)
              · exact hmem
              · exact absurd (by rw [heq]) ha
            · exact Or.inl

theorem FLApps_Delete_frame (cs : CRDClientset) (ns name : String) :
    (FLApps.Delete cs ns name).2.unavailable = cs.unavailable ∧
      ∀ a : FLApp, a.Namespace ≠ ns →
        (a ∈ (FLApps.Delete cs ns name).2.flapps ↔ a ∈ cs.flapps) := by
  unfold FLApps.Delete
  split
  · exact ⟨rfl, fun _ _ => Iff.rfl⟩
  · split
    · exact ⟨rfl, fun _ _ => Iff.rfl⟩
    · split
      · refine ⟨rfl, fun a ha => ?_⟩
        simp only [List.mem_filter, Bool.not_eq_true', Bool.and_eq_false_iff,
          beq_eq_false_iff_ne, ne_eq]
        exact ⟨fun hmem => hmem.1, fun hmem => ⟨hmem, Or.inl ha⟩⟩
      · exact ⟨rfl, fun _ _ => Iff.rfl⟩
/-- C9: for every state and every request, the seven reading handlers return
the state they were given; `CreateFLApp` and `DeleteFLApp` leave the core
client, both informer caches and every stored FLApp outside the namespace of
the request as they were. -/
theorem handlers_frame (h : Handler) (c : Context) :
    (h.ListNamespaces c).1 = h ∧ (h.ListPods c).1 = h ∧ (h.GetPod c).1 = h ∧
      (h.ListPodEvents c).1 = h ∧ (h.GetFLApp c).1 = h ∧ (h.ListFLAppPods c).1 = h ∧
      (h.ListFLApps c).1 = h ∧
      ((h.CreateFLApp c).1.kubeClient = h.kubeClient ∧
        (h.CreateFLApp c).1.informerFactory = h.informerFactory ∧
        (h.CreateFLApp c).1.crdInformerFactory = h.crdInformerFactory ∧
        ∀ a : FLApp, a.Namespace ≠ c.Param "namespace" →
          (a ∈ (h.CreateFLApp c).1.crdClient.flapps ↔ a ∈ h.crdClient.flapps)) ∧
      ((h.DeleteFLApp c).1.kubeClient = h.kubeClient ∧
        (h.DeleteFLApp c).1.informerFactory = h.informerFactory ∧
        (h.DeleteFLApp c).1.crdInformerFactory = h.crdInformerFactory ∧
        ∀ a : FLApp, a.Namespace ≠ c.Param "namespace" →
          (a ∈ (h.DeleteFLApp c).1.crdClient.flapps ↔ a ∈ h.crdClient.flapps)) := by
  refine ⟨?_, ?_, ?_, ?_, ?_, ?_, ?_, ?_, ?_⟩
  · unfold Handler.ListNamespaces
    generalize NamespaceLister.List h.informerFactory Everything = r
    cases r <;> rfl
  · unfold Handler.ListPods
    dsimp only
    generalize PodNamespaceLister.List h.informerFactory (c.Param "namespace") Everything = r
    cases r <;> rfl
  · unfold Handler.GetPod
    dsimp only
    generalize PodNamespaceLister.Get h.informerFactory (c.Param "namespace") (c.Param "name") = r
    cases r <;> rfl
  · unfold Handler.ListPodEvents
    dsimp only
    generalize Events.List h.kubeClient (c.Param "namespace")
      { FieldSelector :=
          (OneTermEqualSelector "involvedObject.name" (c.Param "name")).String } = r
    cases r <;> rfl
  · unfold Handler.GetFLApp
    dsimp only
    generalize FLApps.Get h.crdClient (c.Param "namespace") (c.Param "name") = r
    cases r <;> rfl
  · unfold Handler.ListFLAppPods
    dsimp only
    generalize PodNamespaceLister.List h.informerFactory (c.Param "namespace")
      (AsSelector [("app-name", c.Param "name")]) = r
    cases r <;> rfl
  · unfold Handler.ListFLApps
    dsimp only
    generalize FLApps.List h.crdClient (c.Param "namespace") = r
    cases r <;> rfl
  · unfold Handler.CreateFLApp Context.BindJSON
    dsimp only
    cases hbody : c.body with
    | malformed err => exact ⟨rfl, rfl, rfl, fun _ _ => Iff.rfl⟩
    | flapp obj =>
      dsimp only
      have hframe := (FLApps_Create_frame h.crdClient (c.Param "namespace") obj).2
      generalize FLApps.Create h.crdClient (c.Param "namespace") obj = res at hframe
      rcases res with ⟨r, crd⟩
      cases r <;> exact ⟨rfl, rfl, rfl, hframe⟩
  · unfold Handler.DeleteFLApp
    dsimp only
    have hframe := (FLApps_Delete_frame h.crdClient (c.Param "namespace") (c.Param "name")).2
    generalize FLApps.Delete h.crdClient (c.Param "namespace") (c.Param "name") = res at hframe
    rcases res with ⟨r, crd⟩
    cases r <;> exact ⟨rfl, rfl, rfl, hframe⟩
/-! ## The field selector of `ListPodEvents` -/

theorem EscapeValue_cons (c : Char) (cs : List Char) :
    EscapeValue (c :: cs)
      = (if c = '\\' ∨ c = ',' ∨ c = '=' then ['\\', c] else [c]) ++ EscapeValue cs := by
  simp [EscapeValue]

theorem splitTermsLoop_escaped (cs cur : List Char) :
    splitTermsLoop (EscapeValue cs) false cur = [cur.reverse ++ EscapeValue cs] := by
  induction cs generalizing cur with
  | nil => simp [EscapeValue, splitTermsLoop]
  | cons c cs ih =>
    rw [EscapeValue_cons]
    by_cases hsp : c = '\\' ∨ c = ',' ∨ c = '='
    · simp only [hsp, if_true, List.cons_append, List.nil_append, splitTermsLoop]
      rw [ih]
      simp
    · have h1 : c ≠ '\\' := fun h => hsp (Or.inl h)
      have h2 : c ≠ ',' := fun h => hsp (Or.inr (Or.inl h))
      rw [if_neg hsp, List.cons_append, List.nil_append]
      simp only [splitTermsLoop, h1, h2, if_false]
      rw [ih]
      simp

theorem splitTermsLoop_plain (p rest cur : List Char)
    (hp : ∀ c ∈ p, c ≠ '\\' ∧ c ≠ ',') :
    splitTermsLoop (p ++ rest) false cur = splitTermsLoop rest false (p.reverse ++ cur) := by
  induction p generalizing cur with
  | nil => rfl
  | cons c cs ih =>
    obtain ⟨h1, h2⟩ := hp c (List.mem_cons_self _ _)
    simp only [List.cons_append, splitTermsLoop, h1, h2, if_false, List.append_eq]
    rw [ih _ (fun x hx => hp x (List.mem_cons_of_mem _ hx))]
    simp

theorem EscapeValue_head_ne_eq (cs : List Char) : (EscapeValue cs).head? ≠ some '=' := by
  cases cs with
  | nil => simp [EscapeValue]
  | cons c cs =>
    rw [EscapeValue_cons]
    by_cases hsp : c = '\\' ∨ c = ',' ∨ c = '='
    · simp only [hsp, if_true, List.cons_append, List.head?_cons]
      decide
    · have h3 : c ≠ '=' := fun h => hsp (Or.inr (Or.inr h))
      simp only [hsp, if_false, List.cons_append, List.head?_cons]
      simpa using h3

theorem splitTermLoop_cons (lhs : List Char) (c : Char) (cs : List Char) :
    splitTermLoop lhs (c :: cs)
      = if ['!', '='].isPrefixOf (c :: cs) then some (lhs.reverse, .notEqual, (c :: cs).drop 2)
        else if ['=', '='].isPrefixOf (c :: cs) then
          some (lhs.reverse, .doubleEqual, (c :: cs).drop 2)
        else if ['='].isPrefixOf (c :: cs) then some (lhs.reverse, .equal, (c :: cs).drop 1)
        else splitTermLoop (c :: lhs) cs := rfl

theorem splitTermLoop_plain (p rhs lhs : List Char)
    (hp : ∀ c ∈ p, c ≠ '!' ∧ c ≠ '=') (hrhs : rhs.head? ≠ some '=') :
    splitTermLoop lhs (p ++ '=' :: rhs) = some ((p.reverse ++ lhs).reverse, .equal, rhs) := by
  induction p generalizing lhs with
  | nil =>
    have h2 : (['=', '='].isPrefixOf ('=' :: rhs)) = false := by
      cases rhs with
      | nil => rfl
      | cons d ds =>
        have : d ≠ '=' := by simpa using hrhs
        simp [List.isPrefixOf, Ne.symm this]
    have h1 : (['!', '='].isPrefixOf ('=' :: rhs)) = false := by
      simp [List.isPrefixOf]
    have h3 : (['='].isPrefixOf ('=' :: rhs)) = true := by
      simp [List.isPrefixOf]
    rw [List.nil_append, splitTermLoop_cons, h1, h2, h3]
    simp
  | cons c cs ih =>
    obtain ⟨hc1, hc2⟩ := hp c (List.mem_cons_self _ _)
    have h1 : (['!', '='].isPrefixOf (c :: (cs ++ '=' :: rhs))) = false := by
      simp [List.isPrefixOf, Ne.symm hc1]
    have h2 : (['=', '='].isPrefixOf (c :: (cs ++ '=' :: rhs))) = false := by
      simp [List.isPrefixOf, Ne.symm hc2]
    have h3 : (['='].isPrefixOf (c :: (cs ++ '=' :: rhs))) = false := by
      simp [List.isPrefixOf, Ne.symm hc2]
    rw [List.cons_append, splitTermLoop_cons, h1, h2, h3]
    simp only [Bool.false_eq_true, if_false]
    rw [ih _ (fun x hx => hp x (List.mem_cons_of_mem _ hx))]
    simp
theorem UnescapeLoop_escaped (cs v : List Char) :
    UnescapeLoop (EscapeValue cs) false v = .ok (v.reverse ++ cs) := by
  induction cs generalizing v with
  | nil => simp [EscapeValue, UnescapeLoop]
  | cons c cs ih =>
    rw [EscapeValue_cons]
    by_cases hsp : c = '\\' ∨ c = ',' ∨ c = '='
    · rw [if_pos hsp]
      simp only [List.cons_append, List.nil_append, UnescapeLoop, hsp, if_true, List.append_eq]
      rw [ih]
      simp
    · have h1 : c ≠ '\\' := fun h => hsp (Or.inl h)
      have h23 : ¬ (c = ',' ∨ c = '=') := fun h => hsp (Or.inr h)
      rw [if_neg hsp, List.cons_append, List.nil_append]
      simp only [UnescapeLoop, h1, h23, if_false, List.append_eq]
      rw [ih]
      simp

theorem EscapeValue_eq_self (cs : List Char)
    (hno : (EscapeValue cs).any (fun c => c = '\\' ∨ c = ',' ∨ c = '=') = false) :
    EscapeValue cs = cs := by
  induction cs with
  | nil => rfl
  | cons c cs ih =>
    rw [EscapeValue_cons] at hno ⊢
    by_cases hsp : c = '\\' ∨ c = ',' ∨ c = '='
    · rw [if_pos hsp] at hno
      simp at hno
    · rw [if_neg hsp] at hno ⊢
      simp only [List.cons_append, List.nil_append, List.any_cons, Bool.or_eq_false_iff] at hno
      rw [List.cons_append, List.nil_append, ih hno.2]

theorem UnescapeValue_escaped (cs : List Char) :
    UnescapeValue (EscapeValue cs) = .ok cs := by
  unfold UnescapeValue
  by_cases hany : (EscapeValue cs).any (fun c => c = '\\' ∨ c = ',' ∨ c = '=') = true
  · simp only [hany, Bool.not_true, Bool.false_eq_true, if_false]
    rw [UnescapeLoop_escaped]
    simp
  · have hno : (EscapeValue cs).any (fun c => c = '\\' ∨ c = ',' ∨ c = '=') = false := by
      simpa using hany
    simp only [hno, Bool.not_false, if_true]
    rw [EscapeValue_eq_self cs hno]

/-- Parsing the string of a one-term equality selector gives back that term,
whatever the value, when the field has none of the characters backslash,
comma, equals sign and exclamation mark. -/
theorem ParseSelector_OneTermEqualSelector (k v : String)
    (hk : ∀ c ∈ k.data, c ≠ '\\' ∧ c ≠ ',' ∧ c ≠ '=' ∧ c ≠ '!') :
    ParseSelector (OneTermEqualSelector k v).String = .ok [OneTermEqualSelector k v] := by
  have hsplit : splitTerms (k.data ++ '=' :: EscapeValue v.data)
      = [k.data ++ '=' :: EscapeValue v.data] := by
    unfold splitTerms
    have hlen : ¬ (k.data ++ '=' :: EscapeValue v.data).length = 0 := by simp
    rw [if_neg hlen, splitTermsLoop_plain _ _ _ (fun c hc => ⟨(hk c hc).1, (hk c hc).2.1⟩)]
    have hstep : splitTermsLoop ('=' :: EscapeValue v.data) false (k.data.reverse ++ [])
        = splitTermsLoop (EscapeValue v.data) false ('=' :: (k.data.reverse ++ [])) := by
      simp [splitTermsLoop]
    rw [hstep, splitTermsLoop_escaped]
    simp
  have hterm : splitTerm (k.data ++ '=' :: EscapeValue v.data)
      = some (k.data, .equal, EscapeValue v.data) := by
    unfold splitTerm
    rw [splitTermLoop_plain _ _ _ (fun c hc => ⟨(hk c hc).2.2.2, (hk c hc).2.2.1⟩)
      (EscapeValue_head_ne_eq _)]
    simp
  have hne : ¬ (k.data ++ '=' :: EscapeValue v.data) = [] := by simp
  show parseParts ((splitTerms (k.data ++ '=' :: EscapeValue v.data)).insertionSort
    (fun a b => a ≤ b)) = _
  rw [hsplit]
  simp only [List.insertionSort, List.orderedInsert, parseParts, hne, if_false, hterm,
    UnescapeValue_escaped]
  rfl
theorem Events_List_one_term (cs : Clientset) (ns name : String)
    (hreq : requestError cs.unavailable ns none = none) :
    Events.List cs ns
        { FieldSelector := (OneTermEqualSelector "involvedObject.name" name).String }
      = .ok ((cs.events.filter (fun e => ns = NamespaceAll ∨ e.Namespace = ns)).filter
          (fun e => e.InvolvedObjectName == name)) := by
  have hparse := ParseSelector_OneTermEqualSelector "involvedObject.name" name (by decide)
  unfold Events.List
  simp only [hreq, hparse]
  have hsup : fieldLabelsSupported [OneTermEqualSelector "involvedObject.name" name] = true := by
    simp [fieldLabelsSupported, OneTermEqualSelector]
  simp only [hsup, Bool.not_true, Bool.false_eq_true, if_false]
  congr 1
  apply List.filter_congr
  intro e _
  simp [OneTermEqualSelector, Term.Matches, eventField]

/-- C10 (amended): for every object name the field selector string that
`ListPodEvents` sends parses back to the single term `involvedObject.name =
name` with the original name; and for a non-empty namespace that the REST
client accepts, with the server reachable, `ListPodEvents` answers 200 with
the key "events", and an event is in that list exactly when it is a stored
event of the namespace whose involved object has that name. -/
theorem ListPodEvents_selects_involved_object (h : Handler) (c : Context)
    (hns : c.Param "namespace" ≠ "")
    (hreq : requestError h.kubeClient.unavailable (c.Param "namespace") none = none)
    (hw : c.Writer.written = false) (hb : c.responseBody = []) :
    ParseSelector (OneTermEqualSelector "involvedObject.name" (c.Param "name")).String
        = .ok [{ field := "involvedObject.name", value := c.Param "name", negated := false }] ∧
      ∃ events, (h.ListPodEvents c).2.response = (some 200, [[("events", .events events)]]) ∧
        ∀ e, e ∈ events ↔ (e ∈ h.kubeClient.events ∧ e.Namespace = c.Param "namespace" ∧
          e.InvolvedObjectName = c.Param "name") := by
  constructor
  · exact ParseSelector_OneTermEqualSelector "involvedObject.name" (c.Param "name") (by decide)
  · obtain ⟨_, _, _, hev, _⟩ := handler_envelope h c hw hb
    rw [Events_List_one_term _ _ _ hreq] at hev
    refine ⟨_, hev, ?_⟩
    intro e
    simp only [List.mem_filter, NamespaceAll, hns, false_or, decide_eq_true_eq, beq_iff_eq]
    tauto

theorem ListPodEvents_selects_involved_object_witness :
    ParseSelector (OneTermEqualSelector "involvedObject.name"
          ((request "default" "a,b=c\\d").Param "name")).String
        = .ok [{ field := "involvedObject.name",
                 value := (request "default" "a,b=c\\d").Param "name", negated := false }] ∧
      ∃ events, (sampleHandler.ListPodEvents (request "default" "a,b=c\\d")).2.response
          = (some 200, [[("events", .events events)]]) ∧
        ∀ e, e ∈ events ↔ (e ∈ sampleHandler.kubeClient.events ∧
          e.Namespace = (request "default" "a,b=c\\d").Param "namespace" ∧
          e.InvolvedObjectName = (request "default" "a,b=c\\d").Param "name") :=
  ListPodEvents_selects_involved_object sampleHandler (request "default" "a,b=c\\d")
    (by decide) (by decide) (by decide) (by decide)

/-- C10 (counterexample): `ListPodEvents` with the empty namespace parameter
and the name "job1-worker-0" returns the event ev2, which is in the namespace
"kube-system" and not in the namespace of the request. -/
theorem ListPodEvents_empty_namespace_lists_all :
    (sampleHandler.ListPodEvents (request "" "job1-worker-0")).2.response
        = (some 200, [[("events", .events
            [{ Namespace := "default", Name := "ev1", InvolvedObjectName := "job1-worker-0" },
             { Namespace := "kube-system", Name := "ev2",
               InvolvedObjectName := "job1-worker-0" }])]]) ∧
      "kube-system" ≠ (request "" "job1-worker-0").Param "namespace" := by
  decide

end handler
